import Mathlib

/-!
# Warmboot extractor: a shallow embedding of `warmboot_extractor.c`

The development follows `source/warmboot/warmboot_extractor.c` and
`warmboot_extractor.h`.

Conventions of the embedding

* `u8` values are `Fin 256`; `u32` values are natural numbers reduced
  `% 2 ^ 32` wherever the C code can overflow.
* Memory seen through a `u8 *` is a total map from byte offsets to bytes
  (`Mem`).  Adding a constant to a pointer is `ptr_add`.
* Module-level statics (`fuse_database`, `db_entry_count`, `db_loaded`) are
  passed explicitly as a `FuseDb` value.
* Results of collaborators that are not part of the module (storage, SD card,
  cipher engine, allocator, fuse registers) are fields of an environment
  record.
-/

namespace Warmboot

/-! ## Bytes, memory and libc helpers -/

/-- A `u8`. -/
abbrev Byte := Fin 256

/-- Memory as seen through a `u8 *`: byte offset to byte. -/
abbrev Mem := Nat → Byte

/-- Pointer addition `p + k` on a `u8 *`. -/
def ptr_add (p : Mem) (k : Nat) : Mem := fun i => p (k + i)

/-- The bytes of a string literal. -/
def str_bytes (s : String) : List Byte :=
  s.toList.map (fun c => Fin.ofNat c.toNat)

/-- A C string literal as memory: its bytes followed by NUL bytes. -/
def cstr (s : String) : Mem := fun i => (str_bytes s).getD i 0

/-- Libc `memcmp(a, b, n)`: the difference of the first pair of bytes that
differ among the first `n`, and `0` when there is none. -/
def memcmp (a b : Mem) : Nat → Int
  | 0 => 0
  | n + 1 =>
    if a 0 = b 0 then memcmp (ptr_add a 1) (ptr_add b 1) n
    else ((a 0).val : Int) - ((b 0).val : Int)

/-- The `n` bytes at `p`, as a list. -/
def bytes_at (p : Mem) (n : Nat) : List Byte :=
  (List.range n).map p

/-! ## Firmware identification (`get_target_firmware_from_pkg1`) -/

/-- Source lines 89-127: the `switch` over the version byte at offset `0x1F`
with the date string at offset `0x10` compared by `memcmp`. -/
def get_target_firmware_from_pkg1 (package1 : Mem) : Nat :=
  match (package1 0x1F).val with
  | 0x01 => 0x100
  | 0x02 => 0x200
  | 0x04 => 0x300
  | 0x07 => 0x400
  | 0x0B => 0x500
  | 0x0E =>
    if memcmp (ptr_add package1 0x10) (cstr "20180802") 8 = 0 then 0x600
    else if memcmp (ptr_add package1 0x10) (cstr "20181107") 8 = 0 then 0x620
    else 0
  | 0x0F => 0x700
  | 0x10 =>
    if memcmp (ptr_add package1 0x10) (cstr "20190314") 8 = 0 then 0x800
    else if memcmp (ptr_add package1 0x10) (cstr "20190531") 8 = 0 then 0x810
    else if memcmp (ptr_add package1 0x10) (cstr "20190809") 8 = 0 then 0x900
    else if memcmp (ptr_add package1 0x10) (cstr "20191021") 8 = 0 then 0x910
    else if memcmp (ptr_add package1 0x10) (cstr "20200303") 8 = 0 then 0xA00
    else if memcmp (ptr_add package1 0x10) (cstr "20201030") 8 = 0 then 0xB00
    else if memcmp (ptr_add package1 0x10) (cstr "20210129") 8 = 0 then 0xC00
    else if memcmp (ptr_add package1 0x10) (cstr "20210422") 8 = 0 then 0xC02
    else if memcmp (ptr_add package1 0x10) (cstr "20210607") 8 = 0 then 0xC10
    else if memcmp (ptr_add package1 0x10) (cstr "20210805") 8 = 0 then 0xD00
    else if memcmp (ptr_add package1 0x10) (cstr "20220105") 8 = 0 then 0xD21
    else if memcmp (ptr_add package1 0x10) (cstr "20220209") 8 = 0 then 0xE00
    else if memcmp (ptr_add package1 0x10) (cstr "20220801") 8 = 0 then 0xF00
    else if memcmp (ptr_add package1 0x10) (cstr "20230111") 8 = 0 then 0x1000
    else if memcmp (ptr_add package1 0x10) (cstr "20230906") 8 = 0 then 0x1100
    else if memcmp (ptr_add package1 0x10) (cstr "20240207") 8 = 0 then 0x1200
    else if memcmp (ptr_add package1 0x10) (cstr "20240808") 8 = 0 then 0x1300
    else if memcmp (ptr_add package1 0x10) (cstr "20250206") 8 = 0 then 0x1400
    else if memcmp (ptr_add package1 0x10) (cstr "20251009") 8 = 0 then 0x1500
    else 0
  | _ => 0

/-- The firmware table as the specification words it: a version byte, a date
(`none` when the version byte alone decides) and the firmware code. -/
def fw_table : List (Nat × Option String × Nat) :=
  [ (0x01, none, 0x100), (0x02, none, 0x200), (0x04, none, 0x300),
    (0x07, none, 0x400), (0x0B, none, 0x500), (0x0F, none, 0x700),
    (0x0E, some "20180802", 0x600), (0x0E, some "20181107", 0x620),
    (0x10, some "20190314", 0x800), (0x10, some "20190531", 0x810),
    (0x10, some "20190809", 0x900), (0x10, some "20191021", 0x910),
    (0x10, some "20200303", 0xA00), (0x10, some "20201030", 0xB00),
    (0x10, some "20210129", 0xC00), (0x10, some "20210422", 0xC02),
    (0x10, some "20210607", 0xC10), (0x10, some "20210805", 0xD00),
    (0x10, some "20220105", 0xD21), (0x10, some "20220209", 0xE00),
    (0x10, some "20220801", 0xF00), (0x10, some "20230111", 0x1000),
    (0x10, some "20230906", 0x1100), (0x10, some "20240207", 0x1200),
    (0x10, some "20240808", 0x1300), (0x10, some "20250206", 0x1400),
    (0x10, some "20251009", 0x1500) ]

/-- Whether a table row is keyed by the given version byte and date. -/
def fw_row_matches (version : Byte) (date : List Byte)
    (row : Nat × Option String × Nat) : Bool :=
  version.val == row.1 &&
    (match row.2.1 with
     | none => true
     | some s => date == str_bytes s)

/-- Table lookup with default `0`, as the specification words it. -/
def fw_table_lookup (version : Byte) (date : List Byte) : Nat :=
  match fw_table.find? (fw_row_matches version date) with
  | some row => row.2.2
  | none => 0

/-! ## Fuse database (`fuse_database`, `db_entry_count`, `db_loaded`) -/

/-- Source lines 31-34: one firmware-to-fuse-count row (two `u32`). -/
structure fuse_db_entry_t where
  firmware_version : Nat
  fuse_count : Nat
deriving DecidableEq, Repr

/-- Source line 37. -/
def MAX_DB_ENTRIES : Nat := 64

/-- Source lines 40-42: the module-level database cache.  The array
`fuse_database[MAX_DB_ENTRIES]` is a map from index to row; only indices below
`MAX_DB_ENTRIES` are ever written or read. -/
structure FuseDb where
  fuse_database : Nat → fuse_db_entry_t
  db_entry_count : Nat
  db_loaded : Bool

/-- The statics as initialised at program start (zeroed array, count `0`,
flag `false`). -/
def FuseDb.initial : FuseDb :=
  { fuse_database := fun _ => { firmware_version := 0, fuse_count := 0 },
    db_entry_count := 0,
    db_loaded := false }

/-- The rows below `db_entry_count`, in stored order. -/
def FuseDb.stored (db : FuseDb) : List fuse_db_entry_t :=
  (List.range db.db_entry_count).map db.fuse_database

/-- What the SD card and FatFs deliver to `load_wb_database_from_sd`:
the result of `sd_mount()`, the `FRESULT` of `f_open` (`FR_OK` is `0`) and the
successive line buffers `f_gets` fills before it returns `NULL`. -/
structure SdCard where
  sd_mount : Bool
  f_open : Nat
  lines : List (List Char)

/-- Source lines 154-173: the parsing loop.  `sscanf_hex_dec buffer` stands
for `sscanf(buffer, "%x=%u", &fw_ver, &fuse_cnt)`: it is `some (fw_ver,
fuse_cnt)` exactly when the libc call returns `2`. -/
def parse_db_lines (sscanf_hex_dec : List Char → Option (Nat × Nat)) :
    List (List Char) → FuseDb → FuseDb
  | [], db => db
  | buffer :: rest, db =>
    if db.db_entry_count < MAX_DB_ENTRIES then
      if buffer.headD (Char.ofNat 0) = '#' ∨ buffer.headD (Char.ofNat 0) = '\n'
          ∨ buffer.headD (Char.ofNat 0) = '\r' then
        parse_db_lines sscanf_hex_dec rest db
      else if ¬ '=' ∈ buffer then
        parse_db_lines sscanf_hex_dec rest db
      else
        match sscanf_hex_dec buffer with
        | some (fw_ver, fuse_cnt) =>
          parse_db_lines sscanf_hex_dec rest
            { db with
              fuse_database := Function.update db.fuse_database db.db_entry_count
                { firmware_version := fw_ver, fuse_count := fuse_cnt },
              db_entry_count := db.db_entry_count + 1 }
        | none => parse_db_lines sscanf_hex_dec rest db
    else db

/-- Source lines 132-180.  Returns the `bool` result and the statics after the
call.  `f_close` and `sd_end` do not touch the statics and are left out. -/
def load_wb_database_from_sd (sscanf_hex_dec : List Char → Option (Nat × Nat))
    (sd : SdCard) (db : FuseDb) : Bool × FuseDb :=
  if db.db_loaded then (true, db)
  else if !sd.sd_mount then (false, db)
  else if sd.f_open ≠ 0 then (false, db)
  else
    let db1 := parse_db_lines sscanf_hex_dec sd.lines { db with db_entry_count := 0 }
    let loaded := decide (db1.db_entry_count > 0)
    (loaded, { db1 with db_loaded := loaded })

/-- Source lines 189-193: the linear search `for (i = 0; i < db_entry_count;
i++)`, started at index `i` with `fuel` iterations left; `none` when the loop
ends without a `return`. -/
def db_search (db : FuseDb) (target_firmware : Nat) : Nat → Nat → Option Nat
  | 0, _ => none
  | fuel + 1, i =>
    if i < db.db_entry_count then
      if target_firmware ≥ (db.fuse_database i).firmware_version then
        some (db.fuse_database i).fuse_count
      else db_search db target_firmware fuel (i + 1)
    else none

/-- Source lines 221-243: the hardcoded fallback chain. -/
def hardcoded_fuse_version (target_firmware : Nat) : Nat :=
  if target_firmware ≥ 0x1500 then 22
  else if target_firmware ≥ 0x1400 then 21
  else if target_firmware ≥ 0x1300 then 20
  else if target_firmware ≥ 0x1100 then 19
  else if target_firmware ≥ 0x1000 then 18
  else if target_firmware ≥ 0xF00 then 17
  else if target_firmware ≥ 0xD21 then 16
  else if target_firmware ≥ 0xC02 then 15
  else if target_firmware ≥ 0xB00 then 14
  else if target_firmware ≥ 0xA00 then 13
  else if target_firmware ≥ 0x910 then 12
  else if target_firmware ≥ 0x900 then 11
  else if target_firmware ≥ 0x810 then 10
  else if target_firmware ≥ 0x700 then 9
  else if target_firmware ≥ 0x620 then 8
  else if target_firmware ≥ 0x600 then 7
  else if target_firmware ≥ 0x500 then 6
  else if target_firmware ≥ 0x400 then 5
  else if target_firmware ≥ 0x302 then 4
  else if target_firmware ≥ 0x300 then 3
  else if target_firmware ≥ 0x200 then 2
  else if target_firmware ≥ 0x100 then 1
  else 0

/-- Source lines 185-244: the external database is tried first when it is
loaded; a search that ends without a match falls through to the hardcoded
chain. -/
def get_expected_fuse_version (db : FuseDb) (target_firmware : Nat) : Nat :=
  match (if db.db_loaded && decide (db.db_entry_count > 0)
         then db_search db target_firmware db.db_entry_count 0 else none) with
  | some fuse_count => fuse_count
  | none => hardcoded_fuse_version target_firmware

/-- The builtin thresholds as the specification lists them. -/
def builtin_thresholds : List Nat :=
  [0x1500, 0x1400, 0x1300, 0x1100, 0x1000, 0xF00, 0xD21, 0xC02, 0xB00, 0xA00,
   0x910, 0x900, 0x810, 0x700, 0x620, 0x600, 0x500, 0x400, 0x302, 0x300,
   0x200, 0x100]

/-- First match wins over the builtin thresholds, as the specification words
it: `22 - i` for the index `i` of the first threshold not above the query,
and `0` when every threshold is above it. -/
def builtin_first_match (q : Nat) : Nat :=
  match builtin_thresholds.findIdx? (fun t => decide (t ≤ q)) with
  | some i => 22 - i
  | none => 0

/-- First match wins over the stored override rows, as the specification
words it: the fuse count of the first row whose firmware version is not above
the query. -/
def override_first_match (rows : List fuse_db_entry_t) (q : Nat) : Option Nat :=
  (rows.find? (fun e => decide (e.firmware_version ≤ q))).map (fun e => e.fuse_count)

/-- A descending `if` chain over a list of thresholds: the first threshold
not above `q` yields the number of thresholds from it to the end of the list,
and `0` is the result when every threshold is above `q`.  The hardcoded chain
of `get_expected_fuse_version` is this chain over `builtin_thresholds`. -/
def threshold_chain : List Nat → Nat → Nat
  | [], _ => 0
  | t :: rest, q => if q ≥ t then (t :: rest).length else threshold_chain rest q

/-- A loaded override table with the two rows `0x1500=30` and `0x1000=5`. -/
def sample_override_db : FuseDb :=
  { fuse_database := fun i =>
      if i = 0 then { firmware_version := 0x1500, fuse_count := 30 }
      else if i = 1 then { firmware_version := 0x1000, fuse_count := 5 }
      else { firmware_version := 0, fuse_count := 0 },
    db_entry_count := 2,
    db_loaded := true }

/-- An SD card that cannot be mounted. -/
def sd_absent : SdCard := { sd_mount := false, f_open := 0, lines := [] }

/-- An SD card whose database file holds one line. -/
def sd_one_line : SdCard :=
  { sd_mount := true, f_open := 0, lines := ["0x1500=22\n".toList] }

/-! ## Hardware facts and the result record -/

/-- Source lines 18-20, 22-24, 28 and header lines 29-32. -/
def WARMBOOT_MIN_SIZE : Nat := 0x800

def WARMBOOT_MAX_SIZE : Nat := 0x1000

def PKG1_SIZE : Nat := 0x40000

def KS_MARIKO_BEK : Nat := 13

def SIG_NX_BOOTLOADER : Nat := 0xD5034FDF

def SIG_SECURE_MONITOR_1 : Nat := 0xE328F0C0

def SIG_SECURE_MONITOR_2 : Nat := 0xF0C0A7F0

/-- Header lines 61-73. -/
inductive wb_extract_error_t where
  | WB_SUCCESS
  | WB_ERR_NULL_INFO
  | WB_ERR_ERISTA_NOT_SUPPORTED
  | WB_ERR_MALLOC_PKG1
  | WB_ERR_MMC_INIT
  | WB_ERR_MMC_PARTITION
  | WB_ERR_MMC_READ
  | WB_ERR_DECRYPT_VERIFY
  | WB_ERR_PK11_MAGIC
  | WB_ERR_WB_SIZE_INVALID
  | WB_ERR_MALLOC_WB
deriving DecidableEq, Repr

/-- Header lines 42-58.  `data` is `none` for a `NULL` pointer and otherwise
the bytes of the allocated buffer; the fixed-size arrays are lists of their
declared length. -/
structure warmboot_info_t where
  data : Option (List Byte)
  size : Nat
  fuse_count : Byte
  burnt_fuses : Byte
  target_firmware : Nat
  is_erista : Bool
  pk11_offset : Nat
  pk11_header : List Nat
  sig_found : List Nat
  debug_ptr_offset : Nat
  debug_layout_type : Nat
  debug_warmboot_preview : List Byte
  pkg1_date : List Byte
  pkg1_version : Byte
deriving DecidableEq, Repr

/-- The record after `memset(wb_info, 0, sizeof(warmboot_info_t))`. -/
def warmboot_info_t.zeroed : warmboot_info_t :=
  { data := none, size := 0, fuse_count := 0, burnt_fuses := 0,
    target_firmware := 0, is_erista := false, pk11_offset := 0,
    pk11_header := List.replicate 8 0, sig_found := List.replicate 3 0,
    debug_ptr_offset := 0, debug_layout_type := 0,
    debug_warmboot_preview := List.replicate 16 0,
    pkg1_date := List.replicate 12 0, pkg1_version := 0 }

/-- Calls the extraction routine makes to its collaborators, in the order
they are made. -/
inductive Event where
  | fuse_read_dramid
  | fuse_read_odm (idx : Nat)
  | malloc_pkg1 (ok : Bool)
  | free_pkg1
  | sdmmc_storage_end
  | usleep
  | emummc_storage_init_mmc
  | emummc_storage_set_mmc_partition
  | emummc_storage_read
  | emummc_storage_end
  | se_aes_iv_set
  | se_aes_crypt_cbc
  | malloc_wb (ok : Bool)
deriving DecidableEq, Repr

/-- What the collaborators deliver during one run of the extraction routine.

* `dramid`, `odm6`, `odm7`: the values of `fuse_read_dramid(false)`,
  `fuse_read_odm(6)` and `fuse_read_odm(7)`.
* `emmc_initialized`: whether `emmc_storage.sdmmc != NULL` on entry.
* `malloc_pkg1_ok`, `malloc_wb_ok`: whether the two `malloc` calls succeed.
* `mmc_res`: the result of `emummc_storage_init_mmc()`.
* `set_partition_ok`, `read_ok`: the results of
  `emummc_storage_set_mmc_partition` and `emummc_storage_read`.
* `ram`: the memory at `pkg1_buffer` after the read, indexed by the byte offset
  from `pkg1_buffer` (addresses are 32 bits wide, offsets are taken
  `% 2 ^ 32`); offsets below `PKG1_SIZE` are the container as read from BOOT0,
  the others lie outside the allocation.
* `se_aes_crypt_cbc ks iv src size`: the plaintext the cipher engine writes
  for key slot `ks`, the 16-byte IV `iv` and `size` bytes of ciphertext at
  `src`, indexed from the start of the destination. -/
structure Hw where
  dramid : Nat
  odm6 : Nat
  odm7 : Nat
  emmc_initialized : Bool
  malloc_pkg1_ok : Bool
  mmc_res : Int
  set_partition_ok : Bool
  read_ok : Bool
  ram : Mem
  se_aes_crypt_cbc : Nat → List Byte → Mem → Nat → Mem
  malloc_wb_ok : Bool

/-- Source lines 45-49. -/
def is_mariko (hw : Hw) : Bool := decide (hw.dramid ≥ 4)

/-- Source lines 59-62 and 65-68: one counting loop over the 32 bits of a fuse
word; the `u8` counter wraps at 256. -/
def count_fuse_bits (word : Nat) (fuse_count : Byte) : Byte :=
  (List.range 32).foldl
    (fun count i => if (word >>> i) &&& 1 ≠ 0 then count + 1 else count) fuse_count

/-- Source lines 53-71. -/
def get_burnt_fuses (hw : Hw) : Byte :=
  count_fuse_bits hw.odm7 (count_fuse_bits hw.odm6 0)

/-! ## Loads through 32-bit pointers -/

/-- The byte at a 32-bit address (an offset from `pkg1_buffer`). -/
def load_u8 (buf : Mem) (addr : Nat) : Byte := buf (addr % 2 ^ 32)

/-- A little-endian `u32` load. -/
def load_u32 (buf : Mem) (addr : Nat) : Nat :=
  (load_u8 buf addr).val + 2 ^ 8 * (load_u8 buf (addr + 1)).val
    + 2 ^ 16 * (load_u8 buf (addr + 2)).val + 2 ^ 24 * (load_u8 buf (addr + 3)).val

/-- Element `idx` of a `u32 *`: `ptr[idx]`. -/
def u32_index (buf : Mem) (ptr idx : Nat) : Nat := load_u32 buf (ptr + 4 * idx)

/-- Pointer arithmetic `ptr + n` on a `u32 *`: the address moves by
`n * sizeof(u32)` bytes. -/
def u32_ptr_add (ptr n : Nat) : Nat := (ptr + 4 * n) % 2 ^ 32

/-- The `n` bytes from a 32-bit address on, as `memcpy` reads them. -/
def load_bytes (buf : Mem) (addr n : Nat) : List Byte :=
  (List.range n).map (fun k => load_u8 buf (addr + k))

/-! ## The extraction routine (`extract_warmboot_from_pkg1_ex`) -/

/-- What one call of the routine leaves behind: the returned code, the
record behind `wb_info` (`none` for a `NULL` pointer) and the collaborator
calls made, in order. -/
structure Outcome where
  code : wb_extract_error_t
  wb_info : Option warmboot_info_t
  trace : List Event
deriving DecidableEq, Repr

/-- Source lines 330-340: the buffer after `se_aes_iv_set` and
`se_aes_crypt_cbc`.  With `pkg1_mariko = pkg1_buffer + 0x170`, the IV is the 16
bytes at `pkg1_mariko + 0x10` and the `0x40000 - (0x20 + 0x170)` bytes from
`pkg1_mariko + 0x20` on are replaced by the cipher output. -/
def decrypt_in_place (hw : Hw) : Mem := fun i =>
  if 0x170 + 0x20 ≤ i ∧ i < 0x170 + 0x20 + (0x40000 - (0x20 + 0x170)) then
    hw.se_aes_crypt_cbc KS_MARIKO_BEK (bytes_at (ptr_add hw.ram (0x170 + 0x10)) 16)
      (ptr_add hw.ram (0x170 + 0x20)) (0x40000 - (0x20 + 0x170)) (i - (0x170 + 0x20))
  else hw.ram i

/-- The loop variables of the navigation loop, with the addresses of the
signature loads made so far (`reads`, kept for the resource statements). -/
structure NavState where
  i : Nat
  pk11_data : Nat
  sig_found : List Nat
  reads : List Nat
deriving DecidableEq, Repr

/-- Source lines 419-439 followed by the `i++` of the `for`: one iteration of
the navigation loop.  `pk11_ptr` and `pk11_data` are addresses (offsets from
`pkg1_buffer`). -/
def nav_iteration (buf : Mem) (pk11_ptr : Nat) (s : NavState) : NavState :=
  let signature := load_u32 buf s.pk11_data
  let s1 : NavState :=
    { s with sig_found := s.sig_found.set s.i signature,
             reads := s.reads ++ [s.pk11_data] }
  let s2 : NavState :=
    if signature = SIG_NX_BOOTLOADER then
      { s1 with pk11_data := u32_ptr_add s1.pk11_data (u32_index buf pk11_ptr 6 / 4) }
    else if signature = SIG_SECURE_MONITOR_1 ∨ signature = SIG_SECURE_MONITOR_2 then
      { s1 with pk11_data := u32_ptr_add s1.pk11_data (u32_index buf pk11_ptr 4 / 4) }
    else
      { s1 with i := 3 }
  { s2 with i := s2.i + 1 }

/-- Source line 418: `for (int i = 0; i < 3; i++)`, with `fuel` bounding the
number of iterations. -/
def nav_loop (buf : Mem) (pk11_ptr : Nat) : Nat → NavState → NavState
  | 0, s => s
  | fuel + 1, s =>
    if s.i < 3 then nav_loop buf pk11_ptr fuel (nav_iteration buf pk11_ptr s) else s

/-- The loop variables on entry to the navigation loop (source lines
410-415). -/
def nav_start (pk11_ptr : Nat) (sig_found : List Nat) : NavState :=
  { i := 0,
    pk11_data := u32_ptr_add pk11_ptr (0x20 / 4),
    sig_found := ((sig_found.set 0 0).set 1 0).set 2 0,
    reads := [] }

/-- Source lines 408-495: navigation, size validation and packaging, once the
header has been located at address `pk11_ptr`. -/
def navigate_and_package (hw : Hw) (buf : Mem) (wb : warmboot_info_t)
    (target_fw pk11_ptr : Nat) (trace : List Event) : Outcome :=
  let s := nav_loop buf pk11_ptr 3 (nav_start pk11_ptr wb.sig_found)
  let wb := { wb with sig_found := s.sig_found }
  let wb := { wb with debug_ptr_offset := (s.pk11_data + 2 ^ 32 - pk11_ptr) % 2 ^ 32 }
  let wb_size := load_u32 buf s.pk11_data
  let warmboot_size_header := u32_index buf pk11_ptr 1
  let wb :=
    if warmboot_size_header = wb_size ∧ warmboot_size_header ≥ WARMBOOT_MIN_SIZE
        ∧ warmboot_size_header < WARMBOOT_MAX_SIZE then
      { wb with debug_layout_type := 1 }
    else
      { wb with debug_layout_type := 2 }
  let wb := { wb with target_firmware := target_fw }
  if wb_size < WARMBOOT_MIN_SIZE ∨ wb_size ≥ WARMBOOT_MAX_SIZE then
    { code := .WB_ERR_WB_SIZE_INVALID,
      wb_info := some { wb with size := wb_size },
      trace := trace ++ [.free_pkg1] }
  else
    let wb := { wb with size := wb_size }
    let wb := { wb with debug_warmboot_preview := load_bytes buf s.pk11_data 16 }
    if !hw.malloc_wb_ok then
      { code := .WB_ERR_MALLOC_WB,
        wb_info := some wb,
        trace := trace ++ [.malloc_wb false, .free_pkg1] }
    else
      let wb_data := load_bytes buf s.pk11_data wb_size
      { code := .WB_SUCCESS,
        wb_info := some { wb with data := some wb_data, size := wb_size },
        trace := trace ++ [.malloc_wb true, .free_pkg1] }

/-- Source lines 348-406: firmware detection, fuse bookkeeping and the search
for the `PK11` magic in the decrypted buffer `buf`; the working pointer is
`pkg1_buffer + 0x170`. -/
def locate_pk11 (hw : Hw) (buf : Mem) (wb : warmboot_info_t)
    (trace : List Event) : Outcome :=
  let pkg1_buffer : Mem := ptr_add buf 0x170
  let target_fw := get_target_firmware_from_pkg1 pkg1_buffer
  let wb := { wb with pkg1_version := pkg1_buffer 0x1F }
  let wb := { wb with
    pkg1_date := bytes_at (ptr_add pkg1_buffer 0x10) 8 ++ (0 :: wb.pkg1_date.drop 9) }
  let burnt_fuses := get_burnt_fuses hw
  let trace := trace ++ [.fuse_read_odm 6, .fuse_read_odm 7]
  let wb := { wb with fuse_count := burnt_fuses, burnt_fuses := burnt_fuses,
                      target_firmware := target_fw }
  let pk11_offset : Nat := if target_fw ≠ 0 ∧ target_fw ≥ 0x620 then 0x7000 else 0x4000
  let pk11_ok := decide (memcmp (ptr_add pkg1_buffer pk11_offset) (cstr "PK11") 4 = 0)
  let pk11_offset2 : Nat :=
    if !pk11_ok then (if pk11_offset = 0x4000 then 0x7000 else 0x4000) else pk11_offset
  let pk11_ok2 :=
    if !pk11_ok then decide (memcmp (ptr_add pkg1_buffer pk11_offset2) (cstr "PK11") 4 = 0)
    else pk11_ok
  if !pk11_ok2 then
    { code := .WB_ERR_PK11_MAGIC, wb_info := some wb, trace := trace ++ [.free_pkg1] }
  else
    let wb := { wb with pk11_offset := pk11_offset2 }
    let pk11_ptr := 0x170 + pk11_offset2
    let wb := { wb with
      pk11_header := (List.range 8).map (fun i => u32_index buf pk11_ptr i) }
    navigate_and_package hw buf wb target_fw pk11_ptr trace

/-- Source lines 265-346: argument check, hardware gate, allocation, storage
access, decryption and its verification.  `wb_info_given` is whether the
`wb_info` argument is a non-`NULL` pointer. -/
def extract_warmboot_from_pkg1_ex (hw : Hw) (wb_info_given : Bool) : Outcome :=
  if !wb_info_given then
    { code := .WB_ERR_NULL_INFO, wb_info := none, trace := [] }
  else
    let wb := warmboot_info_t.zeroed
    let wb := { wb with is_erista := !is_mariko hw }
    let wb := { wb with fuse_count := get_burnt_fuses hw }
    let trace : List Event := [.fuse_read_dramid, .fuse_read_odm 6, .fuse_read_odm 7]
    if wb.is_erista then
      { code := .WB_ERR_ERISTA_NOT_SUPPORTED, wb_info := some wb, trace := trace }
    else if !hw.malloc_pkg1_ok then
      { code := .WB_ERR_MALLOC_PKG1, wb_info := some wb,
        trace := trace ++ [.malloc_pkg1 false] }
    else
      let trace := trace ++ [.malloc_pkg1 true]
      let trace := if hw.emmc_initialized then trace ++ [.sdmmc_storage_end] else trace
      let trace := trace ++ [.usleep, .emummc_storage_init_mmc]
      if hw.mmc_res = 2 then
        { code := .WB_ERR_MMC_INIT, wb_info := some wb, trace := trace ++ [.free_pkg1] }
      else
        let trace := trace ++ [.emummc_storage_set_mmc_partition]
        if !hw.set_partition_ok then
          { code := .WB_ERR_MMC_PARTITION, wb_info := some wb,
            trace := trace ++ [.emummc_storage_end, .free_pkg1] }
        else
          let trace := trace ++ [.emummc_storage_read]
          if !hw.read_ok then
            { code := .WB_ERR_MMC_READ, wb_info := some wb,
              trace := trace ++ [.emummc_storage_end, .free_pkg1] }
          else
            let trace := trace ++ [.emummc_storage_end, .se_aes_iv_set, .se_aes_crypt_cbc]
            let buf := decrypt_in_place hw
            if memcmp (ptr_add buf 0x170) (ptr_add buf (0x170 + 0x20)) 0x20 ≠ 0 then
              { code := .WB_ERR_DECRYPT_VERIFY, wb_info := some wb,
                trace := trace ++ [.free_pkg1] }
            else
              locate_pk11 hw buf wb trace

/-! ## Vocabulary of the navigation statements -/

/-- A signature of a sub-image the walk skips. -/
def recognized (sig : Nat) : Prop :=
  sig = SIG_NX_BOOTLOADER ∨ sig = SIG_SECURE_MONITOR_1 ∨ sig = SIG_SECURE_MONITOR_2

instance (sig : Nat) : Decidable (recognized sig) := by
  unfold recognized
  infer_instance

/-- The header slot consulted for a recognized signature: word 6 for the
bootloader signature, word 4 for the two secure-monitor signatures. -/
def slot_of (sig : Nat) : Nat := if sig = SIG_NX_BOOTLOADER then 6 else 4

/-- The bytes the cursor moves on a signature: the slot value rounded down to
a multiple of `sizeof(u32)` for a recognized signature, nothing otherwise. -/
def skip_bytes (buf : Mem) (pk11_ptr sig : Nat) : Nat :=
  if recognized sig then 4 * (u32_index buf pk11_ptr (slot_of sig) / 4) else 0

/-- The number of consecutive recognized signatures met from address `cur`
on, looking at no more than `n` of them. -/
def recognized_run (buf : Mem) (pk11_ptr : Nat) : Nat → Nat → Nat
  | 0, _ => 0
  | n + 1, cur =>
    if recognized (load_u32 buf cur) then
      1 + recognized_run buf pk11_ptr n
            ((cur + skip_bytes buf pk11_ptr (load_u32 buf cur)) % 2 ^ 32)
    else 0

/-! ## Vocabulary of the magic-location statements -/

/-- The 4 bytes at offset `off` of the decrypted container are `PK11`. -/
def has_pk11_magic (pkg1 : Mem) (off : Nat) : Prop :=
  bytes_at (ptr_add pkg1 off) 4 = str_bytes "PK11"

instance (pkg1 : Mem) (off : Nat) : Decidable (has_pk11_magic pkg1 off) := by
  unfold has_pk11_magic
  infer_instance

/-- The candidate tried first: `0x7000` from firmware `0x620` on, `0x4000`
below it and for the unknown firmware `0`. -/
def preferred_pk11_offset (target_fw : Nat) : Nat :=
  if target_fw ≥ 0x620 then 0x7000 else 0x4000

/-- The candidate tried second. -/
def other_pk11_offset (off : Nat) : Nat :=
  if off = 0x4000 then 0x7000 else 0x4000

/-! ## Sample containers -/

/-- Memory `m` with the little-endian `u32` value `v` stored at `base`. -/
def put_u32 (base v : Nat) (m : Mem) : Mem := fun i =>
  if i = base then Fin.ofNat (v % 256)
  else if i = base + 1 then Fin.ofNat (v / 2 ^ 8 % 256)
  else if i = base + 2 then Fin.ofNat (v / 2 ^ 16 % 256)
  else if i = base + 3 then Fin.ofNat (v / 2 ^ 24 % 256)
  else m i

/-- Memory `m` with the bytes `l` stored from `base` on. -/
def put_bytes (base : Nat) (l : List Byte) (m : Mem) : Mem := fun i =>
  if base ≤ i ∧ i < base + l.length then l.getD (i - base) 0 else m i

/-- A plaintext container (offsets from `pkg1_buffer`): version byte `0x10` at
`0x170 + 0x1F` and in the redundant copy, `PK11` at `0x170 + 0x7000`, header
word 6 equal to `0x102`, the bootloader signature at the walk start
`0x170 + 0x7020` and the size word `0x900` at `0x170 + 0x7120`. -/
def sample_ram : Mem :=
  put_bytes (0x170 + 0x7000) (str_bytes "PK11") <|
  put_u32 (0x170 + 0x7000 + 4 * 6) 0x102 <|
  put_u32 (0x170 + 0x7020) 0xD5034FDF <|
  put_u32 (0x170 + 0x7120) 0x900 <|
  (fun i => if i = 0x170 + 0x1F ∨ i = 0x190 + 0x1F then 0x10 else 0)

/-- Revised hardware with every collaborator succeeding, the container
`sample_ram` and a cipher engine that hands back its input. -/
def sample_hw : Hw :=
  { dramid := 4,
    odm6 := 0xFF,
    odm7 := 0x3,
    emmc_initialized := true,
    malloc_pkg1_ok := true,
    mmc_res := 0,
    set_partition_ok := true,
    read_ok := true,
    ram := sample_ram,
    se_aes_crypt_cbc := fun _ _ src _ => src,
    malloc_wb_ok := true }

/-- The hardware of `sample_hw` with a cipher engine that writes `0xFF`
bytes: decryption verification fails. -/
def sample_hw_wrong_key : Hw :=
  { sample_hw with se_aes_crypt_cbc := fun _ _ _ _ _ => 0xFF }

/-! ## Vocabulary of the packaging statements -/

/-- The record as it stands when the allocation is attempted (source lines
270-272): zeroed, then `is_erista` and `fuse_count` filled in. -/
def info_after_gate (hw : Hw) : warmboot_info_t :=
  { warmboot_info_t.zeroed with
    is_erista := !is_mariko hw, fuse_count := get_burnt_fuses hw }

/-- The collaborator calls made up to and including the decryption, when the
allocation and the three storage steps succeed. -/
def trace_before_verify (hw : Hw) : List Event :=
  [.fuse_read_dramid, .fuse_read_odm 6, .fuse_read_odm 7, .malloc_pkg1 true]
    ++ (if hw.emmc_initialized then [.sdmmc_storage_end] else [])
    ++ [.usleep, .emummc_storage_init_mmc, .emummc_storage_set_mmc_partition,
        .emummc_storage_read, .emummc_storage_end, .se_aes_iv_set, .se_aes_crypt_cbc]

/-- The record handed to the navigation once the header has been located at
container offset `off` (source lines 355-406). -/
def info_at_header (hw : Hw) (buf : Mem) (off : Nat) : warmboot_info_t :=
  { info_after_gate hw with
    pkg1_version := ptr_add buf 0x170 0x1F,
    pkg1_date := bytes_at (ptr_add (ptr_add buf 0x170) 0x10) 8 ++ [0, 0, 0, 0],
    fuse_count := get_burnt_fuses hw,
    burnt_fuses := get_burnt_fuses hw,
    target_firmware := get_target_firmware_from_pkg1 (ptr_add buf 0x170),
    pk11_offset := off,
    pk11_header := (List.range 8).map (fun i => u32_index buf (0x170 + off) i) }

/-- The offset at which the header is located: the preferred candidate when it
holds the magic, else the other candidate when that one holds it. -/
def located_pk11_offset (pkg1 : Mem) : Option Nat :=
  if has_pk11_magic pkg1 (preferred_pk11_offset (get_target_firmware_from_pkg1 pkg1)) then
    some (preferred_pk11_offset (get_target_firmware_from_pkg1 pkg1))
  else if has_pk11_magic pkg1
      (other_pk11_offset (preferred_pk11_offset (get_target_firmware_from_pkg1 pkg1))) then
    some (other_pk11_offset (preferred_pk11_offset (get_target_firmware_from_pkg1 pkg1)))
  else none

/-- The address at which the walk ends for a header at address `pk11_ptr`. -/
def walk_end (buf : Mem) (pk11_ptr : Nat) : Nat :=
  (nav_loop buf pk11_ptr 3 (nav_start pk11_ptr (List.replicate 3 0))).pk11_data

/-- The little-endian encoding of a `u32`. -/
def le_bytes (v : Nat) : List Byte :=
  [Fin.ofNat (v % 256), Fin.ofNat (v / 2 ^ 8 % 256), Fin.ofNat (v / 2 ^ 16 % 256),
   Fin.ofNat (v / 2 ^ 24 % 256)]

/-- A plaintext container for the round-trip scenario (offsets from
`pkg1_buffer`): `PK11` at `0x170 + 0x7000`, header word 6 equal to `0x100`, the
bootloader signature at `0x170 + 0x7020`, the size word `0x900` at
`0x170 + 0x7120` and the payload bytes `0xAB` after it. -/
def roundtrip_ram : Mem :=
  put_bytes (0x170 + 0x7000) (str_bytes "PK11") <|
  put_u32 (0x170 + 0x7000 + 4 * 6) 0x100 <|
  put_u32 (0x170 + 0x7020) 0xD5034FDF <|
  put_u32 (0x170 + 0x7120) 0x900 <|
  (fun i => if 0x170 + 0x7124 ≤ i ∧ i < 0x170 + 0x7120 + 0x900 then 0xAB else 0)

/-- Revised hardware with every collaborator succeeding and the container
`roundtrip_ram`. -/
def roundtrip_hw : Hw := { sample_hw with ram := roundtrip_ram }

/-- The hardware of `roundtrip_hw` with an allocator that refuses the output
buffer. -/
def roundtrip_hw_no_memory : Hw := { roundtrip_hw with malloc_wb_ok := false }

/-! ## Path naming (`get_warmboot_path`) -/

/-- Modelled from the spec: `s_printf` (bdk `utils/sprintf.h`) is not among the
sources.  Its `%02x` conversion writes the argument in lowercase hexadecimal,
padded with `0` on the left to at least two digits. -/
def s_printf_02x (value : Nat) : List Char :=
  List.replicate (2 - (Nat.toDigits 16 value).length) '0' ++ Nat.toDigits 16 value

/-- Source lines 74-85: the path written into `path`.  The `path_size`
argument is not used by the source. -/
def get_warmboot_path (hw : Hw) (_path_size : Nat) (fuse_count : Byte) : String :=
  if is_mariko hw then
    String.mk ("sd:/warmboot_mariko/wb_".toList ++ s_printf_02x fuse_count.val ++ ".bin".toList)
  else
    String.mk ("sd:/warmboot_erista/wb_".toList ++ s_printf_02x fuse_count.val ++ ".bin".toList)

/-- One lowercase hexadecimal digit. -/
def hex_digit (d : Nat) : Char :=
  if d < 10 then Char.ofNat (48 + d) else Char.ofNat (87 + d)

/-- The number `n` written as exactly two lowercase hexadecimal digits. -/
def two_hex_digits (n : Nat) : String :=
  String.mk [hex_digit (n / 16), hex_digit (n % 16)]

/-- Legacy hardware with every collaborator succeeding. -/
def erista_hw : Hw := { sample_hw with dramid := 1 }

/-! ## Vocabulary of the resource statements -/

/-- The collaborator calls made up to and including `emummc_storage_init_mmc`
once the container buffer has been allocated. -/
def trace_to_init (hw : Hw) : List Event :=
  [.fuse_read_dramid, .fuse_read_odm 6, .fuse_read_odm 7, .malloc_pkg1 true]
    ++ (if hw.emmc_initialized then [.sdmmc_storage_end] else [])
    ++ [.usleep, .emummc_storage_init_mmc]

/-- The four ways the routine ends once the header search has begun, after the
calls `trace`: the code together with the calls that follow. -/
def exit_shape (o : Outcome) (trace : List Event) : Prop :=
  (o.code = .WB_ERR_PK11_MAGIC ∧ o.trace = trace ++ [.free_pkg1]) ∨
  (o.code = .WB_ERR_WB_SIZE_INVALID ∧ o.trace = trace ++ [.free_pkg1]) ∨
  (o.code = .WB_ERR_MALLOC_WB ∧ o.trace = trace ++ [.malloc_wb false, .free_pkg1]) ∨
  (o.code = .WB_SUCCESS ∧ o.trace = trace ++ [.malloc_wb true, .free_pkg1])

/-! ## Vocabulary of the override parser statements -/

/-- An SD card whose database file lists two rows in ascending order. -/
def sd_ascending : SdCard :=
  { sd_mount := true, f_open := 0, lines := ["0x100=1\n".toList, "0x1500=22\n".toList] }

/-- What `sscanf(buffer, "%x=%u", ...)` delivers on the two lines of
`sd_ascending` (and a failed conversion on any other buffer). -/
def sscanf_two_lines (buffer : List Char) : Option (Nat × Nat) :=
  if buffer = "0x100=1\n".toList then some (0x100, 1)
  else if buffer = "0x1500=22\n".toList then some (0x1500, 22)
  else none

/-! ## Vocabulary of the fuse-count statements -/

/-- The number of set bits of a word: the sum of its binary digits. -/
def popcount (w : Nat) : Nat := (Nat.digits 2 w).sum

/-- The sum of the `n` low bits of a word. -/
def low_bits_sum (w : Nat) : Nat → Nat
  | 0 => 0
  | n + 1 => low_bits_sum w n + w / 2 ^ n % 2

/-! ## Vocabulary of the layout-diagnostic statements -/

/-- Two memories hold the same bytes everywhere outside the 4 bytes from
address `d` on. -/
def agree_off (a b : Mem) (d : Nat) : Prop :=
  ∀ i, ¬ (d ≤ i ∧ i < d + 4) → a i = b i

/-- None of the `n` bytes read from address `addr` on lies in the 4 bytes from
address `d` on. -/
def avoids (d addr n : Nat) : Prop :=
  ∀ k, k < n → ¬ (d ≤ (addr + k) % 2 ^ 32 ∧ (addr + k) % 2 ^ 32 < d + 4)

/-- The two runs see the same hardware and the same collaborator results,
the memory and the cipher output apart. -/
def same_environment (hw hw2 : Hw) : Prop :=
  hw2.dramid = hw.dramid ∧ hw2.odm6 = hw.odm6 ∧ hw2.odm7 = hw.odm7 ∧
  hw2.emmc_initialized = hw.emmc_initialized ∧ hw2.malloc_pkg1_ok = hw.malloc_pkg1_ok ∧
  hw2.mmc_res = hw.mmc_res ∧ hw2.set_partition_ok = hw.set_partition_ok ∧
  hw2.read_ok = hw.read_ok ∧ hw2.malloc_wb_ok = hw.malloc_wb_ok

/-- The outcome with the two fields that record header word 1 blanked:
`debug_layout_type` and `pk11_header[1]`. -/
def without_layout (o : Outcome) : Outcome :=
  { o with wb_info := o.wb_info.map (fun info =>
      { info with debug_layout_type := 0, pk11_header := info.pk11_header.set 1 0 }) }

/-- The number of bytes read at the final cursor: the size word alone when
the size is rejected, the whole image otherwise. -/
def final_read_length (size : Nat) : Nat :=
  if size < WARMBOOT_MIN_SIZE ∨ size ≥ WARMBOOT_MAX_SIZE then 4 else size

/-- A plaintext container whose walk returns to the header: `PK11` at
`0x170 + 0x7000`, header word 1 equal to the first secure-monitor signature,
word 4 equal to `0x100`, word 6 equal to `0xFFFFFFE4` (a step of `-0x1C` in
32-bit arithmetic), the bootloader signature at the walk start and the size
word `0x900` at `0x170 + 0x7104`. -/
def layout_ram : Mem :=
  put_bytes (0x170 + 0x7000) (str_bytes "PK11") <|
  put_u32 (0x170 + 0x7000 + 4 * 1) 0xE328F0C0 <|
  put_u32 (0x170 + 0x7000 + 4 * 4) 0x100 <|
  put_u32 (0x170 + 0x7000 + 4 * 6) 0xFFFFFFE4 <|
  put_u32 (0x170 + 0x7020) 0xD5034FDF <|
  put_u32 (0x170 + 0x7104) 0x900 <|
  (fun _ => 0)

/-- The container `layout_ram` with header word 1 replaced by the bootloader
signature. -/
def layout_ram_other : Mem := put_u32 (0x170 + 0x7000 + 4 * 1) 0xD5034FDF layout_ram

/-- Revised hardware with every collaborator succeeding and the container
`layout_ram`. -/
def layout_hw : Hw := { sample_hw with ram := layout_ram }

/-- The hardware of `layout_hw` with the container `layout_ram_other`. -/
def layout_hw_other : Hw := { sample_hw with ram := layout_ram_other }

/-- The hardware of `roundtrip_hw` with header word 1 of the container
replaced by `0x900`, the value of the size word. -/
def roundtrip_hw_other : Hw :=
  { sample_hw with ram := put_u32 (0x170 + 0x7000 + 4 * 1) 0x900 roundtrip_ram }

/-! ## Vocabulary of the bounds statements -/

/-- A plaintext container whose first skip leaves the buffer: `PK11` at
`0x170 + 0x7000`, header word 6 equal to `0x40000` and the bootloader signature
at the walk start. -/
def far_skip_ram : Mem :=
  put_bytes (0x170 + 0x7000) (str_bytes "PK11") <|
  put_u32 (0x170 + 0x7000 + 4 * 6) 0x40000 <|
  put_u32 (0x170 + 0x7020) 0xD5034FDF <|
  (fun _ => 0)

/-- Revised hardware with every collaborator succeeding and the container
`far_skip_ram`. -/
def far_skip_hw : Hw := { sample_hw with ram := far_skip_ram }

/-! ## Lemmas on the libc helpers -/

theorem memcmp_eq_zero_iff (a b : Mem) (n : Nat) :
    memcmp a b n = 0 ↔ ∀ i, i < n → a i = b i := by
  induction n generalizing a b with
  | zero => simp [memcmp]
  | succ n ih =>
    unfold memcmp
    by_cases h : a 0 = b 0
    · rw [if_pos h, ih]
      constructor
      · intro H i hi
        cases i with
        | zero => exact h
        | succ j =>
          have := H j (by omega)
          simpa [ptr_add, Nat.add_comm] using this
      · intro H i hi
        have := H (i + 1) (by omega)
        simpa [ptr_add, Nat.add_comm] using this
    · rw [if_neg h]
      constructor
      · intro H
        exfalso
        apply h
        apply Fin.ext
        omega
      · intro H
        exact absurd (H 0 (by omega)) h

theorem memcmp_bytes (a b : Mem) (n : Nat) :
    memcmp a b n = 0 ↔ bytes_at a n = bytes_at b n := by
  rw [memcmp_eq_zero_iff]
  constructor
  · intro H
    apply List.ext_getElem
    · simp [bytes_at]
    · intro i h1 _
      simp only [bytes_at, List.length_map, List.length_range] at h1
      simp [bytes_at, H i h1]
  · intro H i hi
    have h3 : (bytes_at a n)[i]? = (bytes_at b n)[i]? := by rw [H]
    simpa [bytes_at, hi] using h3

theorem bytes_at_cstr (s : String) : bytes_at (cstr s) (str_bytes s).length = str_bytes s := by
  apply List.ext_getElem
  · simp [bytes_at]
  · intro i h1 h2
    simp [bytes_at, cstr, List.getD_eq_getElem?_getD, List.getElem?_eq_getElem h2]

theorem memcmp_cstr (p : Mem) (s : String) (n : Nat) (hs : (str_bytes s).length = n) :
    memcmp p (cstr s) n = 0 ↔ bytes_at p n = str_bytes s := by
  rw [memcmp_bytes]
  subst hs
  rw [bytes_at_cstr]

theorem memcmp_date (p : Mem) (s : String) (hs : (str_bytes s).length = 8) :
    memcmp (ptr_add p 0x10) (cstr s) 8 = 0 ↔ bytes_at (ptr_add p 0x10) 8 = str_bytes s :=
  memcmp_cstr _ s 8 hs

theorem lookup_step (d s : List Byte) (a x : Nat)
    (y : Option (Nat × Option String × Nat)) (row : Nat × Option String × Nat)
    (hrow : row.2.2 = a)
    (h : x = match y with
      | some r => r.2.2
      | none => 0) :
    (if d = s then a else x) =
      match (match d == s with
        | true => some row
        | false => y) with
      | some r => r.2.2
      | none => 0 := by
  by_cases hd : d = s
  · simp [hd, hrow]
  · have hb : (d == s) = false := by simpa using hd
    rw [if_neg hd, hb]
    exact h

/-- C1: `get_target_firmware_from_pkg1` is the table lookup keyed by the byte at
offset `0x1F` and the 8 bytes at offsets `0x10..0x17`, with default `0`; it
reads nothing else. -/
theorem get_target_firmware_from_pkg1_eq_table (p : Mem) :
    get_target_firmware_from_pkg1 p
      = fw_table_lookup (p 0x1F) (bytes_at (ptr_add p 0x10) 8) := by
  unfold get_target_firmware_from_pkg1
  simp only [memcmp_date p "20180802" (by decide),
    memcmp_date p "20181107" (by decide),
    memcmp_date p "20190314" (by decide),
    memcmp_date p "20190531" (by decide),
    memcmp_date p "20190809" (by decide),
    memcmp_date p "20191021" (by decide),
    memcmp_date p "20200303" (by decide),
    memcmp_date p "20201030" (by decide),
    memcmp_date p "20210129" (by decide),
    memcmp_date p "20210422" (by decide),
    memcmp_date p "20210607" (by decide),
    memcmp_date p "20210805" (by decide),
    memcmp_date p "20220105" (by decide),
    memcmp_date p "20220209" (by decide),
    memcmp_date p "20220801" (by decide),
    memcmp_date p "20230111" (by decide),
    memcmp_date p "20230906" (by decide),
    memcmp_date p "20240207" (by decide),
    memcmp_date p "20240808" (by decide),
    memcmp_date p "20250206" (by decide),
    memcmp_date p "20251009" (by decide)]
  generalize bytes_at (ptr_add p 0x10) 8 = d
  generalize p 0x1F = v
  unfold fw_table_lookup fw_table
  split
  case h_9 =>
    rename_i h1 h2 h4 h7 hB hE hF h10
    have e1 : (v.val == 1) = false := by simpa using h1
    have e2 : (v.val == 2) = false := by simpa using h2
    have e4 : (v.val == 4) = false := by simpa using h4
    have e7 : (v.val == 7) = false := by simpa using h7
    have eB : (v.val == 11) = false := by simpa using hB
    have eE : (v.val == 14) = false := by simpa using hE
    have eF : (v.val == 15) = false := by simpa using hF
    have e10 : (v.val == 16) = false := by simpa using h10
    simp only [List.find?, fw_row_matches, e1, e2, e4, e7, eB, eE, eF, e10,
      Bool.false_and]
  all_goals rename_i hv
  all_goals simp [List.find?, fw_row_matches, hv]
  all_goals (repeat (refine lookup_step _ _ _ _ _ _ rfl ?_))
  all_goals rfl

/-! ## The fuse database -/

theorem hardcoded_eq_chain (q : Nat) :
    hardcoded_fuse_version q = threshold_chain builtin_thresholds q := by
  rfl

theorem threshold_chain_le_length (l : List Nat) (q : Nat) :
    threshold_chain l q ≤ l.length := by
  induction l with
  | nil => simp [threshold_chain]
  | cons t rest ih =>
    unfold threshold_chain
    split
    · exact Nat.le_refl _
    · simp only [List.length_cons]; omega

theorem threshold_chain_mono (l : List Nat) (a b : Nat) (h : b ≤ a) :
    threshold_chain l b ≤ threshold_chain l a := by
  induction l with
  | nil => simp [threshold_chain]
  | cons t rest ih =>
    by_cases ha : a ≥ t
    · have e : threshold_chain (t :: rest) a = (t :: rest).length := by
        simp [threshold_chain, ha]
      rw [e]
      exact threshold_chain_le_length _ _
    · have hb : ¬ b ≥ t := by omega
      simp only [threshold_chain, if_neg ha, if_neg hb]
      exact ih

theorem threshold_chain_eq_findIdx (l : List Nat) (q : Nat) :
    threshold_chain l q =
      match l.findIdx? (fun t => decide (t ≤ q)) with
      | some i => l.length - i
      | none => 0 := by
  induction l with
  | nil => simp [threshold_chain]
  | cons t rest ih =>
    by_cases hq : t ≤ q
    · simp [threshold_chain, List.findIdx?_cons, hq]
    · simp only [threshold_chain, List.findIdx?_cons, hq, ge_iff_le, if_false, decide_False]
      rw [ih]
      cases h : List.findIdx? (fun t => decide (t ≤ q)) rest with
      | none => simp [h]
      | some i => simp [h]

theorem threshold_chain_eq_zero (l : List Nat) (q : Nat) :
    threshold_chain l q = 0 ↔ ∀ t ∈ l, q < t := by
  induction l with
  | nil => simp [threshold_chain]
  | cons t rest ih =>
    by_cases hq : t ≤ q
    · simp [threshold_chain, hq]
    · simp only [threshold_chain, ge_iff_le, hq, if_false, ih, List.mem_cons, forall_eq_or_imp]
      constructor
      · intro H; exact ⟨by omega, H⟩
      · intro H; exact H.2

theorem db_search_eq_first_match (db : FuseDb) (q : Nat) :
    ∀ fuel i, db.db_entry_count ≤ i + fuel →
      db_search db q fuel i =
        override_first_match
          ((List.range' i (db.db_entry_count - i)).map db.fuse_database) q := by
  intro fuel
  induction fuel with
  | zero =>
    intro i h
    have e : db.db_entry_count - i = 0 := by omega
    simp [db_search, e, override_first_match]
  | succ n ih =>
    intro i h
    unfold db_search
    by_cases hi : i < db.db_entry_count
    · obtain ⟨m, hm⟩ : ∃ m, db.db_entry_count - i = m + 1 := ⟨db.db_entry_count - i - 1, by omega⟩
      have hm2 : db.db_entry_count - (i + 1) = m := by omega
      rw [if_pos hi, hm, List.range'_succ, List.map_cons]
      by_cases hq : (db.fuse_database i).firmware_version ≤ q
      · simp [override_first_match, hq]
      · rw [if_neg (by simpa using hq), ih (i + 1) (by omega), hm2]
        simp [override_first_match, hq]
    · have e : db.db_entry_count - i = 0 := by omega
      simp [hi, e, override_first_match]

theorem db_search_stored (db : FuseDb) (q : Nat) :
    db_search db q db.db_entry_count 0 = override_first_match db.stored q := by
  rw [db_search_eq_first_match db q db.db_entry_count 0 (by omega)]
  simp [FuseDb.stored, List.range_eq_range']

theorem db_search_first (db : FuseDb) (q k : Nat) (hk : k < db.db_entry_count)
    (hle : (db.fuse_database k).firmware_version ≤ q)
    (hfirst : ∀ j, j < k → q < (db.fuse_database j).firmware_version) :
    ∀ fuel i, i ≤ k → k < i + fuel →
      db_search db q fuel i = some (db.fuse_database k).fuse_count := by
  intro fuel
  induction fuel with
  | zero => intro i h1 h2; omega
  | succ n ih =>
    intro i h1 h2
    unfold db_search
    rw [if_pos (by omega)]
    by_cases hik : i = k
    · subst hik
      rw [if_pos hle]
    · have hlt : i < k := by omega
      have := hfirst i hlt
      rw [if_neg (by omega)]
      exact ih (i + 1) (by omega) (by omega)

theorem get_expected_not_loaded (db : FuseDb) (q : Nat) (hdb : db.db_loaded = false) :
    get_expected_fuse_version db q = hardcoded_fuse_version q := by
  simp [get_expected_fuse_version, hdb]

/-- C2: with no override table loaded, `get_expected_fuse_version` is monotone
in the queried firmware version. -/
theorem get_expected_fuse_version_monotone (db : FuseDb) (a b : Nat)
    (hdb : db.db_loaded = false) (h : b ≤ a) :
    get_expected_fuse_version db b ≤ get_expected_fuse_version db a := by
  rw [get_expected_not_loaded db a hdb, get_expected_not_loaded db b hdb,
    hardcoded_eq_chain, hardcoded_eq_chain]
  exact threshold_chain_mono _ _ _ h

theorem get_expected_fuse_version_monotone_witness :
    FuseDb.initial.db_loaded = false ∧ 0x620 ≤ 0x1500 ∧
      get_expected_fuse_version FuseDb.initial 0x620
        ≤ get_expected_fuse_version FuseDb.initial 0x1500 :=
  ⟨rfl, by decide,
    get_expected_fuse_version_monotone FuseDb.initial 0x1500 0x620 rfl (by decide)⟩

/-- C3: with no override table loaded, `get_expected_fuse_version q` is
`22 - i` for the index `i` of the first of the 22 strictly descending builtin
thresholds that is not above `q`, it is `0` exactly when `q < 0x100`, and it
never exceeds 22. -/
theorem get_expected_fuse_version_builtin (db : FuseDb) (q : Nat)
    (hdb : db.db_loaded = false) :
    builtin_thresholds.length = 22 ∧
    builtin_thresholds.Pairwise (fun s t => s > t) ∧
    get_expected_fuse_version db q = builtin_first_match q ∧
    (get_expected_fuse_version db q = 0 ↔ q < 0x100) ∧
    get_expected_fuse_version db q ≤ 22 := by
  have e : get_expected_fuse_version db q = threshold_chain builtin_thresholds q := by
    rw [get_expected_not_loaded db q hdb, hardcoded_eq_chain]
  refine ⟨rfl, by decide, ?_, ?_, ?_⟩
  · rw [e, threshold_chain_eq_findIdx]
    rfl
  · rw [e, threshold_chain_eq_zero]
    simp only [builtin_thresholds, List.mem_cons, List.mem_singleton, forall_eq_or_imp,
      forall_eq, List.not_mem_nil, false_imp_iff, implies_true, and_true]
    omega
  · rw [e]
    exact threshold_chain_le_length _ _

theorem get_expected_fuse_version_builtin_witness :
    FuseDb.initial.db_loaded = false ∧
    get_expected_fuse_version FuseDb.initial 0xD21 = builtin_first_match 0xD21 ∧
    get_expected_fuse_version FuseDb.initial 0xD21 = 16 :=
  ⟨rfl, (get_expected_fuse_version_builtin FuseDb.initial 0xD21 rfl).2.2.1, by decide⟩

/-- C4: with an override table loaded, a query covered by some stored row gets
the fuse count of the first stored row whose firmware version is not above
it. -/
theorem get_expected_fuse_version_override (db : FuseDb) (q k : Nat)
    (hl : db.db_loaded = true) (hc : 0 < db.db_entry_count)
    (hk : k < db.db_entry_count)
    (hle : (db.fuse_database k).firmware_version ≤ q)
    (hfirst : ∀ j, j < k → q < (db.fuse_database j).firmware_version) :
    get_expected_fuse_version db q = (db.fuse_database k).fuse_count := by
  unfold get_expected_fuse_version
  have hcond : (db.db_loaded && decide (db.db_entry_count > 0)) = true := by
    simp [hl, hc]
  rw [if_pos hcond,
    db_search_first db q k hk hle hfirst db.db_entry_count 0 (by omega) (by omega)]

theorem get_expected_fuse_version_override_witness :
    get_expected_fuse_version sample_override_db 0x1400
      = (sample_override_db.fuse_database 1).fuse_count ∧
    hardcoded_fuse_version 0x1400 = 21 ∧
    (sample_override_db.fuse_database 1).fuse_count = 5 :=
  ⟨get_expected_fuse_version_override sample_override_db 0x1400 1 rfl (by decide)
      (by decide) (by decide) (by decide),
    by decide, by decide⟩

/-- C5 (counterexample): with the loaded two-row table `0x1500=30`,
`0x1000=5`, the queries `0x900` and `0x810` are below both rows, and the
results are the builtin values 11 and 10, which no stored row holds. -/
theorem override_falls_back_to_builtin :
    sample_override_db.db_loaded = true ∧
    sample_override_db.db_entry_count = 2 ∧
    sample_override_db.stored =
      [{ firmware_version := 0x1500, fuse_count := 30 },
       { firmware_version := 0x1000, fuse_count := 5 }] ∧
    override_first_match sample_override_db.stored 0x900 = none ∧
    override_first_match sample_override_db.stored 0x810 = none ∧
    get_expected_fuse_version sample_override_db 0x900 = 11 ∧
    get_expected_fuse_version sample_override_db 0x810 = 10 ∧
    hardcoded_fuse_version 0x900 = 11 ∧
    hardcoded_fuse_version 0x810 = 10 := by
  decide

/-- C5 (amended): with a non-empty override table loaded, a query covered by
some stored row gets the fuse count of the first such row, whatever the
builtin table holds; a query that no stored row covers gets the value of the
builtin chain. -/
theorem get_expected_fuse_version_precedence (db : FuseDb) (q : Nat)
    (hl : db.db_loaded = true) (hc : 0 < db.db_entry_count) :
    get_expected_fuse_version db q =
      (override_first_match db.stored q).getD (hardcoded_fuse_version q) := by
  unfold get_expected_fuse_version
  have hcond : (db.db_loaded && decide (db.db_entry_count > 0)) = true := by
    simp [hl, hc]
  rw [if_pos hcond, db_search_stored]
  cases override_first_match db.stored q <;> rfl

theorem get_expected_fuse_version_precedence_witness :
    get_expected_fuse_version sample_override_db 0x1400 = 5 ∧
    get_expected_fuse_version sample_override_db 0x900
      = (override_first_match sample_override_db.stored 0x900).getD
          (hardcoded_fuse_version 0x900) :=
  ⟨by decide,
    get_expected_fuse_version_precedence sample_override_db 0x900 rfl (by decide)⟩

/-- C6: `load_wb_database_from_sd` returns `true` and leaves the statics
untouched whenever the load flag is set, whatever the SD card holds; with the
flag clear, a failed mount or a failed open returns `false`, leaves the statics
untouched, and lookups then use the builtin chain. -/
theorem load_wb_database_from_sd_idempotent
    (sscanf_hex_dec : List Char → Option (Nat × Nat)) (sd : SdCard) (db : FuseDb) :
    (db.db_loaded = true →
      load_wb_database_from_sd sscanf_hex_dec sd db = (true, db)) ∧
    (db.db_loaded = false → (sd.sd_mount = false ∨ sd.f_open ≠ 0) →
      load_wb_database_from_sd sscanf_hex_dec sd db = (false, db) ∧
      ∀ q, get_expected_fuse_version
            (load_wb_database_from_sd sscanf_hex_dec sd db).2 q
          = hardcoded_fuse_version q) := by
  constructor
  · intro h
    simp [load_wb_database_from_sd, h]
  · intro h hs
    have e : load_wb_database_from_sd sscanf_hex_dec sd db = (false, db) := by
      rcases hs with hs | hs
      · simp [load_wb_database_from_sd, h, hs]
      · simp [load_wb_database_from_sd, h, hs]
    refine ⟨e, ?_⟩
    intro q
    rw [e]
    exact get_expected_not_loaded db q h

theorem load_wb_database_from_sd_idempotent_witness :
    load_wb_database_from_sd (fun _ => some (0x1500, 22)) sd_one_line sample_override_db
      = (true, sample_override_db) ∧
    load_wb_database_from_sd (fun _ => some (0x1500, 22)) sd_absent FuseDb.initial
      = (false, FuseDb.initial) :=
  ⟨(load_wb_database_from_sd_idempotent _ sd_one_line sample_override_db).1 rfl,
   ((load_wb_database_from_sd_idempotent _ sd_absent FuseDb.initial).2 rfl
      (Or.inl rfl)).1⟩

/-! ## The navigation loop -/

theorem nav_iteration_recognized (buf : Mem) (p : Nat) (s : NavState)
    (h : recognized (load_u32 buf s.pk11_data)) :
    nav_iteration buf p s =
      { i := s.i + 1,
        pk11_data := (s.pk11_data + skip_bytes buf p (load_u32 buf s.pk11_data)) % 2 ^ 32,
        sig_found := s.sig_found.set s.i (load_u32 buf s.pk11_data),
        reads := s.reads ++ [s.pk11_data] } := by
  have d1 : SIG_SECURE_MONITOR_1 ≠ SIG_NX_BOOTLOADER := by decide
  have d2 : SIG_SECURE_MONITOR_2 ≠ SIG_NX_BOOTLOADER := by decide
  unfold nav_iteration
  simp only [skip_bytes, if_pos h, slot_of, u32_ptr_add]
  rcases h with h | h | h
  · simp [h]
  · simp [h, d1]
  · simp [h, d2]

theorem nav_iteration_unrecognized (buf : Mem) (p : Nat) (s : NavState)
    (h : ¬ recognized (load_u32 buf s.pk11_data)) :
    nav_iteration buf p s =
      { i := 4,
        pk11_data := s.pk11_data,
        sig_found := s.sig_found.set s.i (load_u32 buf s.pk11_data),
        reads := s.reads ++ [s.pk11_data] } := by
  unfold nav_iteration
  unfold recognized at h
  have h1 : ¬ load_u32 buf s.pk11_data = SIG_NX_BOOTLOADER := fun e => h (Or.inl e)
  have h2 : ¬ (load_u32 buf s.pk11_data = SIG_SECURE_MONITOR_1
      ∨ load_u32 buf s.pk11_data = SIG_SECURE_MONITOR_2) := fun e => h (Or.inr e)
  simp only [if_neg h1, if_neg h2]

theorem nav_loop_done (buf : Mem) (p fuel : Nat) (s : NavState) (h : 3 ≤ s.i) :
    nav_loop buf p fuel s = s := by
  cases fuel with
  | zero => rfl
  | succ n => simp [nav_loop, Nat.not_lt.mpr h]

theorem nav_iteration_i (buf : Mem) (p : Nat) (s : NavState) (hi : s.i < 3) :
    s.i + 1 ≤ (nav_iteration buf p s).i := by
  by_cases h : recognized (load_u32 buf s.pk11_data)
  · rw [nav_iteration_recognized buf p s h]
  · rw [nav_iteration_unrecognized buf p s h]
    show s.i + 1 ≤ 4
    omega

/-- Fuel beyond what the guard `i < 3` allows changes nothing. -/
theorem nav_loop_fuel (buf : Mem) (p : Nat) :
    ∀ fuel (s : NavState) m, 3 ≤ s.i + fuel →
      nav_loop buf p (fuel + m) s = nav_loop buf p fuel s := by
  intro fuel
  induction fuel with
  | zero =>
    intro s m h
    rw [nav_loop_done buf p _ s (by omega), nav_loop_done buf p _ s (by omega)]
  | succ n ih =>
    intro s m h
    have e : n + 1 + m = (n + m) + 1 := by omega
    rw [e]
    unfold nav_loop
    split
    · rename_i hi
      exact ih _ m (by have := nav_iteration_i buf p s hi; omega)
    · rfl

theorem nav_loop_step_recognized (buf : Mem) (p fuel : Nat) (s : NavState) (g : Nat)
    (hi : s.i < 3) (hg : g = load_u32 buf s.pk11_data) (h : recognized g) :
    nav_loop buf p (fuel + 1) s =
      nav_loop buf p fuel
        { i := s.i + 1,
          pk11_data := (s.pk11_data + skip_bytes buf p g) % 2 ^ 32,
          sig_found := s.sig_found.set s.i g,
          reads := s.reads ++ [s.pk11_data] } := by
  subst hg
  rw [nav_loop, if_pos hi, nav_iteration_recognized _ _ _ h]

theorem nav_loop_step_unrecognized (buf : Mem) (p fuel : Nat) (s : NavState) (g : Nat)
    (hi : s.i < 3) (hg : g = load_u32 buf s.pk11_data) (h : ¬ recognized g) :
    nav_loop buf p (fuel + 1) s =
      { i := 4,
        pk11_data := s.pk11_data,
        sig_found := s.sig_found.set s.i g,
        reads := s.reads ++ [s.pk11_data] } := by
  subst hg
  rw [nav_loop, if_pos hi, nav_iteration_unrecognized _ _ _ h]
  exact nav_loop_done _ _ _ _ (by show 3 ≤ 4; omega)

/-- The three unrolled iterations of the walk, by the first signature that is
not recognized: `c0 .. c3` are the successive cursors and `g0 .. g2` the
signatures loaded there. -/
theorem nav_loop_three (buf : Mem) (p a b c c0 g0 c1 g1 c2 g2 c3 : Nat)
    (hc0 : c0 = u32_ptr_add p (0x20 / 4)) (hg0 : g0 = load_u32 buf c0)
    (hc1 : c1 = (c0 + skip_bytes buf p g0) % 2 ^ 32) (hg1 : g1 = load_u32 buf c1)
    (hc2 : c2 = (c1 + skip_bytes buf p g1) % 2 ^ 32) (hg2 : g2 = load_u32 buf c2)
    (hc3 : c3 = (c2 + skip_bytes buf p g2) % 2 ^ 32) :
    nav_loop buf p 3 (nav_start p [a, b, c]) =
      if ¬ recognized g0 then
        { i := 4, pk11_data := c0, sig_found := [g0, 0, 0], reads := [c0] }
      else if ¬ recognized g1 then
        { i := 4, pk11_data := c1, sig_found := [g0, g1, 0], reads := [c0, c1] }
      else if ¬ recognized g2 then
        { i := 4, pk11_data := c2, sig_found := [g0, g1, g2], reads := [c0, c1, c2] }
      else
        { i := 3, pk11_data := c3, sig_found := [g0, g1, g2], reads := [c0, c1, c2] } := by
  have hs : nav_start p [a, b, c]
      = { i := 0, pk11_data := c0, sig_found := [0, 0, 0], reads := [] } := by
    rw [hc0]; rfl
  rw [hs]
  by_cases h0 : recognized g0
  · rw [if_neg (not_not.mpr h0),
      nav_loop_step_recognized buf p 2 _ g0 (by simp) hg0 h0]
    simp only [← hc1, List.set, List.nil_append]
    by_cases h1 : recognized g1
    · rw [if_neg (not_not.mpr h1),
        nav_loop_step_recognized buf p 1 _ g1 (by simp) hg1 h1]
      simp only [← hc2, List.set, List.cons_append, List.nil_append]
      by_cases h2 : recognized g2
      · rw [if_neg (not_not.mpr h2),
          nav_loop_step_recognized buf p 0 _ g2 (by simp) hg2 h2]
        simp only [← hc3, List.set, List.cons_append, List.nil_append]
        rfl
      · rw [if_pos h2, nav_loop_step_unrecognized buf p 0 _ g2 (by simp) hg2 h2]
        simp only [List.set, List.cons_append, List.nil_append]
    · rw [if_pos h1, nav_loop_step_unrecognized buf p 1 _ g1 (by simp) hg1 h1]
      simp only [List.set, List.cons_append, List.nil_append]
  · rw [if_pos h0, nav_loop_step_unrecognized buf p 2 _ g0 (by simp) hg0 h0]
    simp only [List.set, List.nil_append]

theorem recognized_run_three (buf : Mem) (p m c0 g0 c1 g1 c2 g2 c3 : Nat)
    (hg0 : g0 = load_u32 buf c0)
    (hc1 : c1 = (c0 + skip_bytes buf p g0) % 2 ^ 32) (hg1 : g1 = load_u32 buf c1)
    (hc2 : c2 = (c1 + skip_bytes buf p g1) % 2 ^ 32) (hg2 : g2 = load_u32 buf c2)
    (hc3 : c3 = (c2 + skip_bytes buf p g2) % 2 ^ 32) :
    recognized_run buf p (3 + m) c0 =
      if recognized g0 then
        1 + (if recognized g1 then
          1 + (if recognized g2 then 1 + recognized_run buf p m c3 else 0) else 0)
      else 0 := by
  have e : 3 + m = m + 1 + 1 + 1 := by omega
  rw [e]
  subst hg0 hc1 hg1 hc2 hg2 hc3
  rfl

theorem list_length_three (l : List Nat) (h : l.length = 3) :
    ∃ a b c, l = [a, b, c] := by
  match l, h with
  | [a, b, c], _ => exact ⟨a, b, c, rfl⟩

/-- C9: the walk makes `min 3 (k + 1)` signature loads, `k` being the number of
consecutive recognized signatures met from the walk start, hence at most 3,
whatever fuel beyond 3 the loop is given; a load that finds an unrecognized
signature is the last one and the cursor stays where that load was made;
`sig_found` holds the loaded signatures and `0` for the iterations that did
not run. -/
theorem nav_walk_reads (buf : Mem) (pk11_ptr m : Nat) (sig_found : List Nat)
    (hsf : sig_found.length = 3) :
    nav_loop buf pk11_ptr (3 + m) (nav_start pk11_ptr sig_found)
      = nav_loop buf pk11_ptr 3 (nav_start pk11_ptr sig_found) ∧
    (nav_loop buf pk11_ptr 3 (nav_start pk11_ptr sig_found)).reads.length
      = min 3 (recognized_run buf pk11_ptr (3 + m) (u32_ptr_add pk11_ptr (0x20 / 4)) + 1) ∧
    (nav_loop buf pk11_ptr 3 (nav_start pk11_ptr sig_found)).reads.length ≤ 3 ∧
    (nav_loop buf pk11_ptr 3 (nav_start pk11_ptr sig_found)).reads.head?
      = some (u32_ptr_add pk11_ptr (0x20 / 4)) ∧
    (∀ j, j < (nav_loop buf pk11_ptr 3 (nav_start pk11_ptr sig_found)).reads.length →
      ¬ recognized (load_u32 buf
          ((nav_loop buf pk11_ptr 3 (nav_start pk11_ptr sig_found)).reads.getD j 0)) →
      (nav_loop buf pk11_ptr 3 (nav_start pk11_ptr sig_found)).pk11_data
          = (nav_loop buf pk11_ptr 3 (nav_start pk11_ptr sig_found)).reads.getD j 0 ∧
      (nav_loop buf pk11_ptr 3 (nav_start pk11_ptr sig_found)).reads.length = j + 1) ∧
    (∀ j, j < (nav_loop buf pk11_ptr 3 (nav_start pk11_ptr sig_found)).reads.length →
      (nav_loop buf pk11_ptr 3 (nav_start pk11_ptr sig_found)).sig_found.getD j 0
        = load_u32 buf
            ((nav_loop buf pk11_ptr 3 (nav_start pk11_ptr sig_found)).reads.getD j 0)) ∧
    (∀ j, (nav_loop buf pk11_ptr 3 (nav_start pk11_ptr sig_found)).reads.length ≤ j →
      (nav_loop buf pk11_ptr 3 (nav_start pk11_ptr sig_found)).sig_found.getD j 0 = 0) := by
  refine ⟨?_, ?_⟩
  · exact nav_loop_fuel buf pk11_ptr 3 _ m (by omega)
  obtain ⟨a, b, c, rfl⟩ := list_length_three sig_found hsf
  rw [nav_loop_three buf pk11_ptr a b c _ _ _ _ _ _ _ rfl rfl rfl rfl rfl rfl rfl,
    recognized_run_three buf pk11_ptr m _ _ _ _ _ _ _ rfl rfl rfl rfl rfl rfl]
  generalize u32_ptr_add pk11_ptr (0x20 / 4) = c0
  generalize hg0 : load_u32 buf c0 = g0
  generalize (c0 + skip_bytes buf pk11_ptr g0) % 2 ^ 32 = c1
  generalize hg1 : load_u32 buf c1 = g1
  generalize (c1 + skip_bytes buf pk11_ptr g1) % 2 ^ 32 = c2
  generalize hg2 : load_u32 buf c2 = g2
  generalize (c2 + skip_bytes buf pk11_ptr g2) % 2 ^ 32 = c3
  by_cases h0 : recognized g0
  · by_cases h1 : recognized g1
    · by_cases h2 : recognized g2
      · simp only [h0, h1, h2, not_true_eq_false, if_false, if_true]
        refine ⟨by simp only [List.length_cons, List.length_nil]; omega, by simp, by simp,
          ?_, ?_, ?_⟩
        · intro j hj hn
          simp only [List.length_cons, List.length_nil] at hj
          interval_cases j <;> simp_all
        · intro j hj
          simp only [List.length_cons, List.length_nil] at hj
          interval_cases j <;> simp_all
        · intro j hj
          simp only [List.length_cons, List.length_nil] at hj
          rw [List.getD_eq_default _ _ (by simpa using hj)]
      · simp only [h0, h1, h2, not_true_eq_false, not_false_eq_true, if_false, if_true]
        refine ⟨by simp, by simp, by simp, ?_, ?_, ?_⟩
        · intro j hj hn
          simp only [List.length_cons, List.length_nil] at hj
          interval_cases j <;> simp_all
        · intro j hj
          simp only [List.length_cons, List.length_nil] at hj
          interval_cases j <;> simp_all
        · intro j hj
          simp only [List.length_cons, List.length_nil] at hj
          rw [List.getD_eq_default _ _ (by simpa using hj)]
    · simp only [h0, h1, not_true_eq_false, not_false_eq_true, if_false, if_true]
      refine ⟨by simp, by simp, by simp, ?_, ?_, ?_⟩
      · intro j hj hn
        simp only [List.length_cons, List.length_nil] at hj
        interval_cases j <;> simp_all
      · intro j hj
        simp only [List.length_cons, List.length_nil] at hj
        interval_cases j <;> simp_all
      · intro j hj
        simp only [List.length_cons, List.length_nil] at hj
        match j, hj with
        | 2, _ => rfl
        | k + 3, _ => simp
  · simp only [h0, not_false_eq_true, if_true, if_false]
    refine ⟨by simp, by simp, by simp, ?_, ?_, ?_⟩
    · intro j hj hn
      simp only [List.length_cons, List.length_nil] at hj
      interval_cases j
      simp_all
    · intro j hj
      simp only [List.length_cons, List.length_nil] at hj
      interval_cases j
      simp_all
    · intro j hj
      simp only [List.length_cons, List.length_nil] at hj
      match j, hj with
      | 1, _ => rfl
      | 2, _ => rfl
      | k + 3, _ => simp

theorem navigate_info (hw : Hw) (buf : Mem) (wb : warmboot_info_t)
    (target_fw pk11_ptr : Nat) (trace : List Event) :
    ∃ info, (navigate_and_package hw buf wb target_fw pk11_ptr trace).wb_info = some info ∧
      info.sig_found = (nav_loop buf pk11_ptr 3 (nav_start pk11_ptr wb.sig_found)).sig_found ∧
      info.debug_ptr_offset =
        ((nav_loop buf pk11_ptr 3 (nav_start pk11_ptr wb.sig_found)).pk11_data
          + 2 ^ 32 - pk11_ptr) % 2 ^ 32 ∧
      info.pk11_offset = wb.pk11_offset := by
  unfold navigate_and_package
  simp only []
  split_ifs <;> exact ⟨_, rfl, rfl, rfl, rfl⟩

theorem skip_bytes_unrecognized (buf : Mem) (p g : Nat) (h : ¬ recognized g) :
    skip_bytes buf p g = 0 := by
  simp [skip_bytes, h]

theorem nav_cursor_sum (buf : Mem) (p : Nat) (sig_found : List Nat)
    (hp : p < 2 ^ 32) (hsf : sig_found.length = 3) :
    ((nav_loop buf p 3 (nav_start p sig_found)).pk11_data + 2 ^ 32 - p) % 2 ^ 32
      = (0x20 + ((nav_loop buf p 3 (nav_start p sig_found)).sig_found.map
            (skip_bytes buf p)).sum) % 2 ^ 32 := by
  obtain ⟨a, b, c, rfl⟩ := list_length_three sig_found hsf
  have z : skip_bytes buf p 0 = 0 := skip_bytes_unrecognized buf p 0 (by decide)
  rw [nav_loop_three buf p a b c _ _ _ _ _ _ _ rfl rfl rfl rfl rfl rfl rfl]
  have hc0 : u32_ptr_add p (0x20 / 4) = (p + 32) % 2 ^ 32 := rfl
  rw [hc0]
  generalize hc0' : (p + 32) % 2 ^ 32 = c0
  generalize hg0 : load_u32 buf c0 = g0
  generalize hc1 : (c0 + skip_bytes buf p g0) % 2 ^ 32 = c1
  generalize hg1 : load_u32 buf c1 = g1
  generalize hc2 : (c1 + skip_bytes buf p g1) % 2 ^ 32 = c2
  generalize hg2 : load_u32 buf c2 = g2
  generalize hc3 : (c2 + skip_bytes buf p g2) % 2 ^ 32 = c3
  by_cases h0 : recognized g0
  · by_cases h1 : recognized g1
    · by_cases h2 : recognized g2
      · simp only [h0, h1, h2, not_true_eq_false, if_false, if_true, List.map_cons,
          List.map_nil, List.sum_cons, List.sum_nil]
        omega
      · simp only [h0, h1, h2, not_true_eq_false, not_false_eq_true, if_false, if_true,
          List.map_cons, List.map_nil, List.sum_cons, List.sum_nil,
          skip_bytes_unrecognized buf p g2 h2]
        omega
    · simp only [h0, h1, not_true_eq_false, not_false_eq_true, if_false, if_true,
        List.map_cons, List.map_nil, List.sum_cons, List.sum_nil,
        skip_bytes_unrecognized buf p g1 h1, z]
      omega
  · simp only [h0, not_false_eq_true, if_true, if_false,
      List.map_cons, List.map_nil, List.sum_cons, List.sum_nil,
      skip_bytes_unrecognized buf p g0 h0, z]
    omega

/-! ## The extraction routine -/

theorem navigate_code (hw : Hw) (buf : Mem) (wb : warmboot_info_t)
    (target_fw pk11_ptr : Nat) (trace : List Event) :
    (navigate_and_package hw buf wb target_fw pk11_ptr trace).code = .WB_ERR_WB_SIZE_INVALID ∨
    (navigate_and_package hw buf wb target_fw pk11_ptr trace).code = .WB_ERR_MALLOC_WB ∨
    (navigate_and_package hw buf wb target_fw pk11_ptr trace).code = .WB_SUCCESS := by
  unfold navigate_and_package
  simp only []
  split_ifs <;> simp

theorem magic_iff (pkg1 : Mem) (off : Nat) :
    memcmp (ptr_add pkg1 off) (cstr "PK11") 4 = 0 ↔ has_pk11_magic pkg1 off :=
  memcmp_cstr _ "PK11" 4 (by decide)

theorem code_pk11_offset (target_fw : Nat) :
    (if target_fw ≠ 0 ∧ target_fw ≥ 0x620 then 0x7000 else 0x4000)
      = preferred_pk11_offset target_fw := by
  unfold preferred_pk11_offset
  by_cases h : target_fw ≥ 0x620
  · have h0 : target_fw ≠ 0 := by omega
    rw [if_pos ⟨h0, h⟩, if_pos h]
  · rw [if_neg (fun hh => h hh.2), if_neg h]

/-- What `locate_pk11` does, by which candidate holds the magic. -/
theorem locate_pk11_cases (hw : Hw) (buf : Mem) (wb : warmboot_info_t) (trace : List Event) :
    (¬ has_pk11_magic (ptr_add buf 0x170)
          (preferred_pk11_offset (get_target_firmware_from_pkg1 (ptr_add buf 0x170))) →
      ¬ has_pk11_magic (ptr_add buf 0x170)
          (other_pk11_offset
            (preferred_pk11_offset (get_target_firmware_from_pkg1 (ptr_add buf 0x170)))) →
      (locate_pk11 hw buf wb trace).code = .WB_ERR_PK11_MAGIC) ∧
    (has_pk11_magic (ptr_add buf 0x170)
          (preferred_pk11_offset (get_target_firmware_from_pkg1 (ptr_add buf 0x170))) →
      ∃ wb1 trace1,
        wb1.pk11_offset
          = preferred_pk11_offset (get_target_firmware_from_pkg1 (ptr_add buf 0x170)) ∧
        wb1.sig_found = wb.sig_found ∧
        locate_pk11 hw buf wb trace
          = navigate_and_package hw buf wb1
              (get_target_firmware_from_pkg1 (ptr_add buf 0x170))
              (0x170 + preferred_pk11_offset
                (get_target_firmware_from_pkg1 (ptr_add buf 0x170))) trace1) ∧
    (¬ has_pk11_magic (ptr_add buf 0x170)
          (preferred_pk11_offset (get_target_firmware_from_pkg1 (ptr_add buf 0x170))) →
      has_pk11_magic (ptr_add buf 0x170)
          (other_pk11_offset
            (preferred_pk11_offset (get_target_firmware_from_pkg1 (ptr_add buf 0x170)))) →
      ∃ wb1 trace1,
        wb1.pk11_offset
          = other_pk11_offset
              (preferred_pk11_offset (get_target_firmware_from_pkg1 (ptr_add buf 0x170))) ∧
        wb1.sig_found = wb.sig_found ∧
        locate_pk11 hw buf wb trace
          = navigate_and_package hw buf wb1
              (get_target_firmware_from_pkg1 (ptr_add buf 0x170))
              (0x170 + other_pk11_offset (preferred_pk11_offset
                (get_target_firmware_from_pkg1 (ptr_add buf 0x170)))) trace1) := by
  unfold locate_pk11
  simp only [code_pk11_offset, magic_iff]
  generalize get_target_firmware_from_pkg1 (ptr_add buf 0x170) = fw
  generalize hpref : preferred_pk11_offset fw = pref
  have hother : (if pref = 0x4000 then 0x7000 else 0x4000) = other_pk11_offset pref := rfl
  simp only [hother]
  refine ⟨?_, ?_, ?_⟩
  · intro h1 h2
    simp [h1, h2]
  · intro h1
    simp only [h1, decide_True, Bool.not_true, Bool.false_eq_true, if_false]
    refine ⟨_, _, ?_, ?_, rfl⟩
    · rfl
    · rfl
  · intro h1 h2
    simp only [h1, h2, decide_True, decide_False, Bool.not_true, Bool.not_false,
      Bool.false_eq_true, if_false, if_true]
    refine ⟨_, _, ?_, ?_, rfl⟩
    · rfl
    · rfl

/-- On revised hardware with allocation and storage succeeding, the routine
reaches the decryption check with a record that holds no output yet. -/
theorem extract_reaches_verify (hw : Hw) (hm : is_mariko hw = true)
    (ha : hw.malloc_pkg1_ok = true) (hi : hw.mmc_res ≠ 2)
    (hp : hw.set_partition_ok = true) (hr : hw.read_ok = true) :
    ∃ wb trace, wb.data = none ∧ wb.size = 0 ∧ wb.sig_found = List.replicate 3 0 ∧
      extract_warmboot_from_pkg1_ex hw true =
        if memcmp (ptr_add (decrypt_in_place hw) 0x170)
            (ptr_add (decrypt_in_place hw) (0x170 + 0x20)) 0x20 ≠ 0 then
          { code := .WB_ERR_DECRYPT_VERIFY, wb_info := some wb,
            trace := trace ++ [.free_pkg1] }
        else locate_pk11 hw (decrypt_in_place hw) wb trace := by
  unfold extract_warmboot_from_pkg1_ex
  simp only [hm, ha, hi, hp, hr, Bool.not_true, Bool.false_eq_true, if_false]
  refine ⟨_, _, ?_, ?_, ?_, rfl⟩
  · rfl
  · rfl
  · rfl

theorem locate_pk11_code_ne_verify (hw : Hw) (buf : Mem) (wb : warmboot_info_t)
    (trace : List Event) :
    (locate_pk11 hw buf wb trace).code ≠ .WB_ERR_DECRYPT_VERIFY := by
  have hc := locate_pk11_cases hw buf wb trace
  by_cases h1 : has_pk11_magic (ptr_add buf 0x170)
      (preferred_pk11_offset (get_target_firmware_from_pkg1 (ptr_add buf 0x170)))
  · obtain ⟨wb1, t1, _, _, e⟩ := hc.2.1 h1
    rw [e]
    rcases navigate_code hw buf wb1 _ _ t1 with h | h | h <;> rw [h] <;> decide
  · by_cases h2 : has_pk11_magic (ptr_add buf 0x170)
        (other_pk11_offset
          (preferred_pk11_offset (get_target_firmware_from_pkg1 (ptr_add buf 0x170))))
    · obtain ⟨wb1, t1, _, _, e⟩ := hc.2.2 h1 h2
      rw [e]
      rcases navigate_code hw buf wb1 _ _ t1 with h | h | h <;> rw [h] <;> decide
    · rw [hc.1 h1 h2]
      decide

/-- C7: on revised hardware with allocation and the storage steps succeeding,
the routine returns `WB_ERR_DECRYPT_VERIFY` exactly when, after the in-place
decryption of buffer bytes `[0x190, 0x40000)`, the `0x20` bytes at offset
`0x170` differ from the `0x20` bytes at offset `0x190`; the record then holds
no output (`data` is `NULL`, `size` is `0`). -/
theorem decrypt_verify_iff (hw : Hw) (hm : is_mariko hw = true)
    (ha : hw.malloc_pkg1_ok = true) (hi : hw.mmc_res ≠ 2)
    (hp : hw.set_partition_ok = true) (hr : hw.read_ok = true) :
    (∀ i, decrypt_in_place hw i =
      if 0x190 ≤ i ∧ i < 0x40000 then
        hw.se_aes_crypt_cbc KS_MARIKO_BEK (bytes_at (ptr_add hw.ram 0x180) 16)
          (ptr_add hw.ram 0x190) (0x40000 - 0x190) (i - 0x190)
      else hw.ram i) ∧
    ((extract_warmboot_from_pkg1_ex hw true).code = .WB_ERR_DECRYPT_VERIFY ↔
      bytes_at (ptr_add (decrypt_in_place hw) 0x170) 0x20
        ≠ bytes_at (ptr_add (decrypt_in_place hw) 0x190) 0x20) ∧
    ((extract_warmboot_from_pkg1_ex hw true).code = .WB_ERR_DECRYPT_VERIFY →
      ∃ info, (extract_warmboot_from_pkg1_ex hw true).wb_info = some info ∧
        info.data = none ∧ info.size = 0) := by
  obtain ⟨wb, trace, hd, hs, _, e⟩ := extract_reaches_verify hw hm ha hi hp hr
  have hmem : memcmp (ptr_add (decrypt_in_place hw) 0x170)
        (ptr_add (decrypt_in_place hw) (0x170 + 0x20)) 0x20 = 0 ↔
      bytes_at (ptr_add (decrypt_in_place hw) 0x170) 0x20
        = bytes_at (ptr_add (decrypt_in_place hw) 0x190) 0x20 := memcmp_bytes _ _ _
  refine ⟨fun i => rfl, ?_, ?_⟩
  · rw [e]
    by_cases hv : memcmp (ptr_add (decrypt_in_place hw) 0x170)
        (ptr_add (decrypt_in_place hw) (0x170 + 0x20)) 0x20 = 0
    · rw [if_neg (not_not.mpr hv)]
      constructor
      · intro h
        exact absurd h (locate_pk11_code_ne_verify _ _ _ _)
      · intro h
        exact absurd (hmem.mp hv) h
    · rw [if_pos hv]
      constructor
      · intro _ h
        exact hv (hmem.mpr h)
      · intro _
        rfl
  · rw [e]
    by_cases hv : memcmp (ptr_add (decrypt_in_place hw) 0x170)
        (ptr_add (decrypt_in_place hw) (0x170 + 0x20)) 0x20 = 0
    · rw [if_neg (not_not.mpr hv)]
      intro h
      exact absurd h (locate_pk11_code_ne_verify _ _ _ _)
    · rw [if_pos hv]
      intro _
      exact ⟨wb, rfl, hd, hs⟩

theorem decrypt_verify_iff_witness :
    ((extract_warmboot_from_pkg1_ex sample_hw_wrong_key true).code = .WB_ERR_DECRYPT_VERIFY ↔
      bytes_at (ptr_add (decrypt_in_place sample_hw_wrong_key) 0x170) 0x20
        ≠ bytes_at (ptr_add (decrypt_in_place sample_hw_wrong_key) 0x190) 0x20) ∧
    (extract_warmboot_from_pkg1_ex sample_hw_wrong_key true).code = .WB_ERR_DECRYPT_VERIFY ∧
    (extract_warmboot_from_pkg1_ex sample_hw true).code = .WB_SUCCESS :=
  ⟨(decrypt_verify_iff sample_hw_wrong_key (by decide) (by decide) (by decide) (by decide)
      (by decide)).2.1, by decide, by decide⟩

theorem navigate_code_ne_magic (hw : Hw) (buf : Mem) (wb : warmboot_info_t)
    (target_fw pk11_ptr : Nat) (trace : List Event) :
    (navigate_and_package hw buf wb target_fw pk11_ptr trace).code ≠ .WB_ERR_PK11_MAGIC := by
  rcases navigate_code hw buf wb target_fw pk11_ptr trace with h | h | h <;> rw [h] <;> decide

theorem preferred_or (fw : Nat) :
    (preferred_pk11_offset fw = 0x4000 ∧ other_pk11_offset (preferred_pk11_offset fw) = 0x7000) ∨
    (preferred_pk11_offset fw = 0x7000 ∧ other_pk11_offset (preferred_pk11_offset fw) = 0x4000) := by
  unfold preferred_pk11_offset
  by_cases h : fw ≥ 0x620
  · right
    rw [if_pos h]
    exact ⟨rfl, rfl⟩
  · left
    rw [if_neg h]
    exact ⟨rfl, rfl⟩

/-- C8: once decryption verification has passed, the candidate offset tried
first is `0x7000` for an identified firmware of `0x620` or later and `0x4000`
otherwise; `pk11_offset` records the first candidate when it holds `PK11`
and else the other candidate when that one holds `PK11`; the routine returns
`WB_ERR_PK11_MAGIC` exactly when neither `0x4000` nor `0x7000` holds `PK11`. -/
theorem pk11_magic_location (hw : Hw) (hm : is_mariko hw = true)
    (ha : hw.malloc_pkg1_ok = true) (hi : hw.mmc_res ≠ 2)
    (hp : hw.set_partition_ok = true) (hr : hw.read_ok = true)
    (hv : bytes_at (ptr_add (decrypt_in_place hw) 0x170) 0x20
        = bytes_at (ptr_add (decrypt_in_place hw) 0x190) 0x20) :
    ((extract_warmboot_from_pkg1_ex hw true).code = .WB_ERR_PK11_MAGIC ↔
      ¬ has_pk11_magic (ptr_add (decrypt_in_place hw) 0x170) 0x4000 ∧
      ¬ has_pk11_magic (ptr_add (decrypt_in_place hw) 0x170) 0x7000) ∧
    (has_pk11_magic (ptr_add (decrypt_in_place hw) 0x170)
        (preferred_pk11_offset
          (get_target_firmware_from_pkg1 (ptr_add (decrypt_in_place hw) 0x170))) →
      (extract_warmboot_from_pkg1_ex hw true).wb_info.map (fun info => info.pk11_offset)
        = some (preferred_pk11_offset
            (get_target_firmware_from_pkg1 (ptr_add (decrypt_in_place hw) 0x170)))) ∧
    (¬ has_pk11_magic (ptr_add (decrypt_in_place hw) 0x170)
        (preferred_pk11_offset
          (get_target_firmware_from_pkg1 (ptr_add (decrypt_in_place hw) 0x170))) →
      has_pk11_magic (ptr_add (decrypt_in_place hw) 0x170)
        (other_pk11_offset (preferred_pk11_offset
          (get_target_firmware_from_pkg1 (ptr_add (decrypt_in_place hw) 0x170)))) →
      (extract_warmboot_from_pkg1_ex hw true).wb_info.map (fun info => info.pk11_offset)
        = some (other_pk11_offset (preferred_pk11_offset
            (get_target_firmware_from_pkg1 (ptr_add (decrypt_in_place hw) 0x170))))) := by
  obtain ⟨wb, trace, _, _, _, e⟩ := extract_reaches_verify hw hm ha hi hp hr
  have hmem : memcmp (ptr_add (decrypt_in_place hw) 0x170)
        (ptr_add (decrypt_in_place hw) (0x170 + 0x20)) 0x20 = 0 :=
    (memcmp_bytes _ _ _).mpr hv
  rw [e, if_neg (not_not.mpr hmem)]
  have hc := locate_pk11_cases hw (decrypt_in_place hw) wb trace
  generalize get_target_firmware_from_pkg1 (ptr_add (decrypt_in_place hw) 0x170) = fw at hc ⊢
  refine ⟨?_, ?_, ?_⟩
  · by_cases h1 : has_pk11_magic (ptr_add (decrypt_in_place hw) 0x170)
        (preferred_pk11_offset fw)
    · obtain ⟨wb1, t1, _, _, e1⟩ := hc.2.1 h1
      rw [e1]
      constructor
      · intro h
        exact absurd h (navigate_code_ne_magic _ _ _ _ _ _)
      · intro h
        rcases preferred_or fw with ⟨hpf, _⟩ | ⟨hpf, _⟩
        · rw [hpf] at h1; exact absurd h1 h.1
        · rw [hpf] at h1; exact absurd h1 h.2
    · by_cases h2 : has_pk11_magic (ptr_add (decrypt_in_place hw) 0x170)
          (other_pk11_offset (preferred_pk11_offset fw))
      · obtain ⟨wb1, t1, _, _, e1⟩ := hc.2.2 h1 h2
        rw [e1]
        constructor
        · intro h
          exact absurd h (navigate_code_ne_magic _ _ _ _ _ _)
        · intro h
          rcases preferred_or fw with ⟨_, hof⟩ | ⟨_, hof⟩
          · rw [hof] at h2; exact absurd h2 h.2
          · rw [hof] at h2; exact absurd h2 h.1
      · rw [hc.1 h1 h2]
        constructor
        · intro _
          rcases preferred_or fw with ⟨hpf, hof⟩ | ⟨hpf, hof⟩
          · rw [hpf] at h1; rw [hof] at h2; exact ⟨h1, h2⟩
          · rw [hpf] at h1; rw [hof] at h2; exact ⟨h2, h1⟩
        · intro _
          rfl
  · intro h1
    obtain ⟨wb1, t1, ho, _, e1⟩ := hc.2.1 h1
    obtain ⟨info, hinfo, _, _, hoff⟩ := navigate_info hw (decrypt_in_place hw) wb1 fw
      (0x170 + preferred_pk11_offset fw) t1
    rw [e1, hinfo, Option.map_some', hoff, ho]
  · intro h1 h2
    obtain ⟨wb1, t1, ho, _, e1⟩ := hc.2.2 h1 h2
    obtain ⟨info, hinfo, _, _, hoff⟩ := navigate_info hw (decrypt_in_place hw) wb1 fw
      (0x170 + other_pk11_offset (preferred_pk11_offset fw)) t1
    rw [e1, hinfo, Option.map_some', hoff, ho]

theorem pk11_magic_location_witness :
    (extract_warmboot_from_pkg1_ex sample_hw true).wb_info.map (fun info => info.pk11_offset)
      = some (other_pk11_offset (preferred_pk11_offset
          (get_target_firmware_from_pkg1 (ptr_add (decrypt_in_place sample_hw) 0x170)))) ∧
    get_target_firmware_from_pkg1 (ptr_add (decrypt_in_place sample_hw) 0x170) = 0 ∧
    (extract_warmboot_from_pkg1_ex sample_hw true).wb_info.map (fun info => info.pk11_offset)
      = some 0x7000 :=
  ⟨(pk11_magic_location sample_hw (by decide) (by decide) (by decide) (by decide)
      (by decide) (by decide)).2.2 (by decide) (by decide), by decide, by decide⟩

theorem nav_walk_reads_witness :
    (nav_loop (decrypt_in_place sample_hw) (0x170 + 0x7000) 3
        (nav_start (0x170 + 0x7000) [0, 0, 0])).reads.length
      = min 3 (recognized_run (decrypt_in_place sample_hw) (0x170 + 0x7000) (3 + 0)
          (u32_ptr_add (0x170 + 0x7000) (0x20 / 4)) + 1) ∧
    (nav_loop (decrypt_in_place sample_hw) (0x170 + 0x7000) 3
        (nav_start (0x170 + 0x7000) [0, 0, 0])).reads = [0x170 + 0x7020, 0x170 + 0x7120] :=
  ⟨(nav_walk_reads (decrypt_in_place sample_hw) (0x170 + 0x7000) 0 [0, 0, 0] rfl).2.1,
    by decide⟩

/-- C10 (counterexample): with header word 6 equal to `0x102` and the
bootloader signature at the walk start, the walk ends `0x120` bytes past the
header, not `0x20 + 0x102`. -/
theorem cursor_advance_rounds_down :
    u32_index (decrypt_in_place sample_hw) (0x170 + 0x7000) 6 = 0x102 ∧
    (extract_warmboot_from_pkg1_ex sample_hw true).wb_info.map (fun info => info.pk11_offset)
      = some 0x7000 ∧
    (extract_warmboot_from_pkg1_ex sample_hw true).wb_info.map (fun info => info.sig_found)
      = some [0xD5034FDF, 0x900, 0] ∧
    (extract_warmboot_from_pkg1_ex sample_hw true).wb_info.map
        (fun info => info.debug_ptr_offset) = some 0x120 ∧
    0x120 ≠ 0x20 + 0x102 := by
  decide

/-- C10 (amended): the walk starts `0x20` bytes past the located header; a
recognized signature moves the cursor by the value of its header slot (word 6
for the bootloader signature, word 4 for the two secure-monitor signatures)
rounded down to a multiple of 4, in 32-bit address arithmetic, which is the
slot value itself when that is a multiple of 4; `debug_ptr_offset` is `0x20`
plus the sum of these rounded slot values over the signatures found, modulo
`2 ^ 32`. -/
theorem debug_ptr_offset_sum (hw : Hw) (hm : is_mariko hw = true)
    (ha : hw.malloc_pkg1_ok = true) (hi : hw.mmc_res ≠ 2)
    (hp : hw.set_partition_ok = true) (hr : hw.read_ok = true)
    (hv : bytes_at (ptr_add (decrypt_in_place hw) 0x170) 0x20
        = bytes_at (ptr_add (decrypt_in_place hw) 0x190) 0x20)
    (hmagic : has_pk11_magic (ptr_add (decrypt_in_place hw) 0x170) 0x4000 ∨
      has_pk11_magic (ptr_add (decrypt_in_place hw) 0x170) 0x7000) :
    slot_of SIG_NX_BOOTLOADER = 6 ∧ slot_of SIG_SECURE_MONITOR_1 = 4 ∧
    slot_of SIG_SECURE_MONITOR_2 = 4 ∧
    (∀ pk11_ptr sig_found,
      (nav_start pk11_ptr sig_found).pk11_data = (pk11_ptr + 0x20) % 2 ^ 32) ∧
    (∀ pk11_ptr s, recognized (load_u32 (decrypt_in_place hw) s.pk11_data) →
      (nav_iteration (decrypt_in_place hw) pk11_ptr s).pk11_data
        = (s.pk11_data + 4 * (u32_index (decrypt_in_place hw) pk11_ptr
            (slot_of (load_u32 (decrypt_in_place hw) s.pk11_data)) / 4)) % 2 ^ 32) ∧
    (∀ pk11_ptr sig, recognized sig →
      u32_index (decrypt_in_place hw) pk11_ptr (slot_of sig) % 4 = 0 →
      skip_bytes (decrypt_in_place hw) pk11_ptr sig
        = u32_index (decrypt_in_place hw) pk11_ptr (slot_of sig)) ∧
    ∃ info, (extract_warmboot_from_pkg1_ex hw true).wb_info = some info ∧
      info.debug_ptr_offset
        = (0x20 + (info.sig_found.map
            (skip_bytes (decrypt_in_place hw) (0x170 + info.pk11_offset))).sum) % 2 ^ 32 := by
  refine ⟨rfl, rfl, rfl, fun _ _ => rfl, ?_, ?_, ?_⟩
  · intro pk11_ptr s h
    rw [nav_iteration_recognized _ _ _ h]
    simp [skip_bytes, h]
  · intro pk11_ptr sig h h4
    simp only [skip_bytes, if_pos h]
    omega
  obtain ⟨wb, trace, _, _, hsf, e⟩ := extract_reaches_verify hw hm ha hi hp hr
  have hmem : memcmp (ptr_add (decrypt_in_place hw) 0x170)
        (ptr_add (decrypt_in_place hw) (0x170 + 0x20)) 0x20 = 0 :=
    (memcmp_bytes _ _ _).mpr hv
  rw [e, if_neg (not_not.mpr hmem)]
  have hc := locate_pk11_cases hw (decrypt_in_place hw) wb trace
  generalize get_target_firmware_from_pkg1 (ptr_add (decrypt_in_place hw) 0x170) = fw at hc ⊢
  have key : ∀ off wb1 t1, off < 0x8000 → wb1.pk11_offset = off →
      wb1.sig_found = wb.sig_found →
      ∃ info, (navigate_and_package hw (decrypt_in_place hw) wb1 fw (0x170 + off) t1).wb_info
          = some info ∧
        info.debug_ptr_offset
          = (0x20 + (info.sig_found.map
              (skip_bytes (decrypt_in_place hw) (0x170 + info.pk11_offset))).sum) % 2 ^ 32 := by
    intro off wb1 t1 hoff ho hs1
    obtain ⟨info, hinfo, hsig, hdbg, hpk⟩ := navigate_info hw (decrypt_in_place hw) wb1 fw
      (0x170 + off) t1
    refine ⟨info, hinfo, ?_⟩
    rw [hdbg, hsig, hpk, ho]
    exact nav_cursor_sum _ _ _ (by omega) (by rw [hs1, hsf]; rfl)
  by_cases h1 : has_pk11_magic (ptr_add (decrypt_in_place hw) 0x170)
      (preferred_pk11_offset fw)
  · obtain ⟨wb1, t1, ho, hs1, e1⟩ := hc.2.1 h1
    rw [e1]
    exact key _ wb1 t1 (by rcases preferred_or fw with ⟨h, _⟩ | ⟨h, _⟩ <;> rw [h] <;> decide)
      ho hs1
  · have h2 : has_pk11_magic (ptr_add (decrypt_in_place hw) 0x170)
        (other_pk11_offset (preferred_pk11_offset fw)) := by
      rcases preferred_or fw with ⟨hpf, hof⟩ | ⟨hpf, hof⟩
      · rw [hpf] at h1
        rw [hof]
        exact hmagic.resolve_left h1
      · rw [hpf] at h1
        rw [hof]
        exact hmagic.resolve_right h1
    obtain ⟨wb1, t1, ho, hs1, e1⟩ := hc.2.2 h1 h2
    rw [e1]
    exact key _ wb1 t1 (by rcases preferred_or fw with ⟨_, h⟩ | ⟨_, h⟩ <;> rw [h] <;> decide)
      ho hs1

theorem debug_ptr_offset_sum_witness :
    ∃ info, (extract_warmboot_from_pkg1_ex sample_hw true).wb_info = some info ∧
      info.debug_ptr_offset
        = (0x20 + (info.sig_found.map
            (skip_bytes (decrypt_in_place sample_hw) (0x170 + info.pk11_offset))).sum)
          % 2 ^ 32 :=
  (debug_ptr_offset_sum sample_hw (by decide) (by decide) (by decide) (by decide)
    (by decide) (by decide) (by decide)).2.2.2.2.2.2

/-! ## Size validation and packaging -/

theorem extract_eq_locate (hw : Hw) (hm : is_mariko hw = true)
    (ha : hw.malloc_pkg1_ok = true) (hi : hw.mmc_res ≠ 2)
    (hp : hw.set_partition_ok = true) (hr : hw.read_ok = true)
    (hv : bytes_at (ptr_add (decrypt_in_place hw) 0x170) 0x20
        = bytes_at (ptr_add (decrypt_in_place hw) 0x190) 0x20) :
    extract_warmboot_from_pkg1_ex hw true
      = locate_pk11 hw (decrypt_in_place hw) (info_after_gate hw) (trace_before_verify hw) := by
  have hmem : memcmp (ptr_add (decrypt_in_place hw) 0x170)
        (ptr_add (decrypt_in_place hw) (0x170 + 0x20)) 0x20 = 0 :=
    (memcmp_bytes _ _ _).mpr hv
  unfold extract_warmboot_from_pkg1_ex
  simp only [hm, ha, hi, hp, hr, Bool.not_true, Bool.false_eq_true, if_false, hmem,
    ne_eq, not_true_eq_false]
  unfold trace_before_verify
  congr 1
  · simp [info_after_gate, hm]
  · cases hw.emmc_initialized <;> simp

theorem locate_eq_navigate (hw : Hw) (buf : Mem) (trace : List Event) (off : Nat)
    (h : located_pk11_offset (ptr_add buf 0x170) = some off) :
    locate_pk11 hw buf (info_after_gate hw) trace
      = navigate_and_package hw buf (info_at_header hw buf off)
          (get_target_firmware_from_pkg1 (ptr_add buf 0x170)) (0x170 + off)
          (trace ++ [.fuse_read_odm 6, .fuse_read_odm 7]) := by
  unfold located_pk11_offset at h
  unfold locate_pk11 info_at_header
  have hdate : List.drop 9 (info_after_gate hw).pkg1_date = [0, 0, 0] := rfl
  simp only [code_pk11_offset, magic_iff, hdate]
  generalize get_target_firmware_from_pkg1 (ptr_add buf 0x170) = fw at h ⊢
  generalize preferred_pk11_offset fw = pref at h ⊢
  have hother : (if pref = 0x4000 then 0x7000 else 0x4000) = other_pk11_offset pref := rfl
  simp only [hother]
  by_cases h1 : has_pk11_magic (ptr_add buf 0x170) pref
  · rw [if_pos h1] at h
    cases h
    simp only [h1, decide_True, Bool.not_true, Bool.false_eq_true, if_false]
  · rw [if_neg h1] at h
    by_cases h2 : has_pk11_magic (ptr_add buf 0x170) (other_pk11_offset pref)
    · rw [if_pos h2] at h
      cases h
      simp only [h1, h2, decide_True, decide_False, Bool.not_true, Bool.not_false,
        Bool.false_eq_true, if_false, if_true]
    · rw [if_neg h2] at h
      cases h

theorem navigate_size (hw : Hw) (buf : Mem) (wb : warmboot_info_t)
    (target_fw pk11_ptr : Nat) (trace : List Event)
    (hsf : wb.sig_found = List.replicate 3 0) :
    ∃ info, (navigate_and_package hw buf wb target_fw pk11_ptr trace).wb_info = some info ∧
      info.pk11_offset = wb.pk11_offset ∧
      info.size = load_u32 buf (walk_end buf pk11_ptr) ∧
      info.debug_ptr_offset = (walk_end buf pk11_ptr + 2 ^ 32 - pk11_ptr) % 2 ^ 32 ∧
      ((navigate_and_package hw buf wb target_fw pk11_ptr trace).code = .WB_ERR_WB_SIZE_INVALID ↔
        load_u32 buf (walk_end buf pk11_ptr) < 0x800 ∨
        load_u32 buf (walk_end buf pk11_ptr) ≥ 0x1000) ∧
      ((navigate_and_package hw buf wb target_fw pk11_ptr trace).code = .WB_ERR_WB_SIZE_INVALID →
        info.data = wb.data) ∧
      ((navigate_and_package hw buf wb target_fw pk11_ptr trace).code = .WB_SUCCESS →
        info.data = some (load_bytes buf (walk_end buf pk11_ptr)
          (load_u32 buf (walk_end buf pk11_ptr))) ∧
        0x800 ≤ load_u32 buf (walk_end buf pk11_ptr) ∧
        load_u32 buf (walk_end buf pk11_ptr) < 0x1000) := by
  unfold navigate_and_package walk_end
  rw [hsf]
  simp only [WARMBOOT_MIN_SIZE, WARMBOOT_MAX_SIZE]
  generalize (nav_loop buf pk11_ptr 3 (nav_start pk11_ptr (List.replicate 3 0))) = st
  generalize load_u32 buf st.pk11_data = s
  by_cases hs : s < 0x800 ∨ s ≥ 0x1000
  · rw [if_pos hs]
    exact ⟨_, rfl, by split_ifs <;> rfl, rfl, by split_ifs <;> rfl, by simp [hs],
      by intro _; split_ifs <;> rfl, by intro h; simp at h⟩
  · rw [if_neg hs]
    have hs' : 0x800 ≤ s ∧ s < 0x1000 := by omega
    by_cases hmw : hw.malloc_wb_ok = true
    · simp only [hmw, Bool.not_true, Bool.false_eq_true, if_false]
      exact ⟨_, rfl, by split_ifs <;> rfl, rfl, by split_ifs <;> rfl, by simp [hs],
        by intro h; simp at h, by intro _; exact ⟨by split_ifs <;> rfl, hs'⟩⟩
    · have hf : hw.malloc_wb_ok = false := by simpa using hmw
      simp only [hf, Bool.not_false, if_true]
      exact ⟨_, rfl, by split_ifs <;> rfl, rfl, by split_ifs <;> rfl, by simp [hs],
        by intro h; simp at h, by intro h; simp at h⟩

theorem walk_end_lt (buf : Mem) (p : Nat) : walk_end buf p < 2 ^ 32 := by
  unfold walk_end
  have e : List.replicate 3 0 = [0, 0, 0] := rfl
  rw [e, nav_loop_three buf p 0 0 0 _ _ _ _ _ _ _ rfl rfl rfl rfl rfl rfl rfl]
  have h0 : u32_ptr_add p (0x20 / 4) < 2 ^ 32 := Nat.mod_lt _ (by norm_num)
  split_ifs <;> first | exact h0 | exact Nat.mod_lt _ (by norm_num)

theorem located_of_magic (pkg1 : Mem)
    (h : has_pk11_magic pkg1 0x4000 ∨ has_pk11_magic pkg1 0x7000) :
    ∃ off, located_pk11_offset pkg1 = some off ∧ (off = 0x4000 ∨ off = 0x7000) := by
  unfold located_pk11_offset
  generalize get_target_firmware_from_pkg1 pkg1 = fw
  rcases preferred_or fw with ⟨hpf, hof⟩ | ⟨hpf, hof⟩
  · rw [hpf] at hof ⊢
    rw [hof]
    by_cases h1 : has_pk11_magic pkg1 0x4000
    · exact ⟨_, if_pos h1, Or.inl rfl⟩
    · rw [if_neg h1, if_pos (h.resolve_left h1)]
      exact ⟨_, rfl, Or.inr rfl⟩
  · rw [hpf] at hof ⊢
    rw [hof]
    by_cases h1 : has_pk11_magic pkg1 0x7000
    · exact ⟨_, if_pos h1, Or.inr rfl⟩
    · rw [if_neg h1, if_pos (h.resolve_right h1)]
      exact ⟨_, rfl, Or.inl rfl⟩

/-- C11: once the walk has finished, with `s` the `u32` at the final cursor,
the routine returns `WB_ERR_WB_SIZE_INVALID` exactly when `s < 0x800` or
`s ≥ 0x1000`; on that failure `size` holds `s` and `data` stays `NULL`.  The
final cursor is `debug_ptr_offset` bytes past the located header. -/
theorem size_validation (hw : Hw) (hm : is_mariko hw = true)
    (ha : hw.malloc_pkg1_ok = true) (hi : hw.mmc_res ≠ 2)
    (hp : hw.set_partition_ok = true) (hr : hw.read_ok = true)
    (hv : bytes_at (ptr_add (decrypt_in_place hw) 0x170) 0x20
        = bytes_at (ptr_add (decrypt_in_place hw) 0x190) 0x20)
    (hmagic : has_pk11_magic (ptr_add (decrypt_in_place hw) 0x170) 0x4000 ∨
      has_pk11_magic (ptr_add (decrypt_in_place hw) 0x170) 0x7000) :
    ∃ info, (extract_warmboot_from_pkg1_ex hw true).wb_info = some info ∧
      walk_end (decrypt_in_place hw) (0x170 + info.pk11_offset)
        = (0x170 + info.pk11_offset + info.debug_ptr_offset) % 2 ^ 32 ∧
      ((extract_warmboot_from_pkg1_ex hw true).code = .WB_ERR_WB_SIZE_INVALID ↔
        load_u32 (decrypt_in_place hw)
            (walk_end (decrypt_in_place hw) (0x170 + info.pk11_offset)) < 0x800 ∨
        load_u32 (decrypt_in_place hw)
            (walk_end (decrypt_in_place hw) (0x170 + info.pk11_offset)) ≥ 0x1000) ∧
      ((extract_warmboot_from_pkg1_ex hw true).code = .WB_ERR_WB_SIZE_INVALID →
        info.size = load_u32 (decrypt_in_place hw)
            (walk_end (decrypt_in_place hw) (0x170 + info.pk11_offset)) ∧
        info.data = none) := by
  obtain ⟨off, hloc, hoff⟩ := located_of_magic _ hmagic
  rw [extract_eq_locate hw hm ha hi hp hr hv, locate_eq_navigate hw _ _ off hloc]
  obtain ⟨info, hinfo, hpk, hsize, hdbg, hiff, hdata, _⟩ :=
    navigate_size hw (decrypt_in_place hw) (info_at_header hw (decrypt_in_place hw) off)
      (get_target_firmware_from_pkg1 (ptr_add (decrypt_in_place hw) 0x170)) (0x170 + off)
      (trace_before_verify hw ++ [.fuse_read_odm 6, .fuse_read_odm 7]) rfl
  have hpk' : info.pk11_offset = off := hpk
  refine ⟨info, hinfo, ?_, ?_, ?_⟩
  · rw [hdbg, hpk']
    have := walk_end_lt (decrypt_in_place hw) (0x170 + off)
    have hlt : off < 0x8000 := by rcases hoff with h | h <;> rw [h] <;> decide
    omega
  · rw [hpk']
    exact hiff
  · intro h
    rw [hpk']
    exact ⟨hsize, hdata h⟩

theorem extract_verify_fail (hw : Hw) (hm : is_mariko hw = true)
    (ha : hw.malloc_pkg1_ok = true) (hi : hw.mmc_res ≠ 2)
    (hp : hw.set_partition_ok = true) (hr : hw.read_ok = true)
    (hv : ¬ bytes_at (ptr_add (decrypt_in_place hw) 0x170) 0x20
        = bytes_at (ptr_add (decrypt_in_place hw) 0x190) 0x20) :
    (extract_warmboot_from_pkg1_ex hw true).code = .WB_ERR_DECRYPT_VERIFY := by
  obtain ⟨wb, trace, _, _, _, e⟩ := extract_reaches_verify hw hm ha hi hp hr
  have hmem : memcmp (ptr_add (decrypt_in_place hw) 0x170)
        (ptr_add (decrypt_in_place hw) (0x170 + 0x20)) 0x20 ≠ 0 :=
    fun h0 => hv ((memcmp_bytes _ _ _).mp h0)
  rw [e, if_pos hmem]

theorem le_bytes_load (buf : Mem) (c : Nat) :
    le_bytes (load_u32 buf c) = load_bytes buf c 4 := by
  have e : load_bytes buf c 4
      = [load_u8 buf c, load_u8 buf (c + 1), load_u8 buf (c + 2), load_u8 buf (c + 3)] := rfl
  rw [e]
  unfold le_bytes load_u32
  generalize load_u8 buf c = b0
  generalize load_u8 buf (c + 1) = b1
  generalize load_u8 buf (c + 2) = b2
  generalize load_u8 buf (c + 3) = b3
  have h0 := b0.isLt
  have h1 := b1.isLt
  have h2 := b2.isLt
  have h3 := b3.isLt
  simp only [List.cons.injEq, and_true]
  refine ⟨?_, ?_, ?_, ?_⟩ <;> apply Fin.ext <;> simp only [Fin.ofNat, Fin.val_mk] <;> omega

theorem load_bytes_take (buf : Mem) (c n k : Nat) (h : k ≤ n) :
    (load_bytes buf c n).take k = load_bytes buf c k := by
  unfold load_bytes
  rw [← List.map_take, List.take_range, Nat.min_eq_left h]

theorem navigate_success (hw : Hw) (buf : Mem) (wb : warmboot_info_t)
    (target_fw pk11_ptr : Nat) (trace : List Event)
    (hsf : wb.sig_found = List.replicate 3 0)
    (hlo : 0x800 ≤ load_u32 buf (walk_end buf pk11_ptr))
    (hhi : load_u32 buf (walk_end buf pk11_ptr) < 0x1000) :
    (navigate_and_package hw buf wb target_fw pk11_ptr trace).code
      = if hw.malloc_wb_ok then .WB_SUCCESS else .WB_ERR_MALLOC_WB := by
  unfold walk_end at hlo hhi
  unfold navigate_and_package
  rw [hsf]
  simp only [WARMBOOT_MIN_SIZE, WARMBOOT_MAX_SIZE]
  rw [if_neg (by omega)]
  cases hw.malloc_wb_ok <;> rfl

theorem load_bytes_no_wrap (buf : Mem) (c n : Nat) (h : c + n ≤ 2 ^ 32) :
    load_bytes buf c n = bytes_at (ptr_add buf c) n := by
  unfold load_bytes bytes_at
  apply List.map_congr_left
  intro k hk
  rw [List.mem_range] at hk
  simp only [load_u8, ptr_add]
  rw [Nat.mod_eq_of_lt (by omega)]

theorem bytes_at_drop (p : Mem) (n k : Nat) :
    (bytes_at p n).drop k = bytes_at (ptr_add p k) (n - k) := by
  apply List.ext_getElem
  · simp [bytes_at]
  · intro i h1 h2
    simp [bytes_at, ptr_add]

theorem ptr_add_add (p : Mem) (a b : Nat) : ptr_add (ptr_add p a) b = ptr_add p (a + b) := by
  funext i
  simp [ptr_add, Nat.add_assoc]

/-- The walk of the round-trip scenario ends at the size word. -/
theorem roundtrip_walk_end (buf : Mem)
    (hw6 : u32_index buf (0x170 + 0x7000) 6 = 0x100)
    (hs0 : load_u32 buf (0x170 + 0x7020) = SIG_NX_BOOTLOADER)
    (hs1 : load_u32 buf (0x170 + 0x7120) = 0x900) :
    walk_end buf (0x170 + 0x7000) = 0x170 + 0x7120 := by
  unfold walk_end
  have e : List.replicate 3 0 = [0, 0, 0] := rfl
  have hc0 : u32_ptr_add (0x170 + 0x7000) (0x20 / 4) = 0x170 + 0x7020 := by decide
  have hr0 : recognized (load_u32 buf (0x170 + 0x7020)) := Or.inl hs0
  have hk0 : skip_bytes buf (0x170 + 0x7000) (load_u32 buf (0x170 + 0x7020)) = 0x100 := by
    rw [skip_bytes, if_pos hr0, hs0]
    have : slot_of SIG_NX_BOOTLOADER = 6 := rfl
    rw [this, hw6]
  have hc1 : (0x170 + 0x7020 + 0x100) % 2 ^ 32 = 0x170 + 0x7120 := by decide
  have hr1 : ¬ recognized (load_u32 buf (0x170 + 0x7120)) := by
    rw [hs1]; decide
  rw [e, nav_loop_three buf _ 0 0 0 _ _ _ _ _ _ _ rfl rfl rfl rfl rfl rfl rfl]
  rw [hc0, hk0, hc1]
  rw [if_neg (not_not.mpr hr0), if_pos hr1]

theorem size_validation_witness :
    ∃ info, (extract_warmboot_from_pkg1_ex sample_hw true).wb_info = some info ∧
      walk_end (decrypt_in_place sample_hw) (0x170 + info.pk11_offset)
        = (0x170 + info.pk11_offset + info.debug_ptr_offset) % 2 ^ 32 ∧
      ((extract_warmboot_from_pkg1_ex sample_hw true).code = .WB_ERR_WB_SIZE_INVALID ↔
        load_u32 (decrypt_in_place sample_hw)
            (walk_end (decrypt_in_place sample_hw) (0x170 + info.pk11_offset)) < 0x800 ∨
        load_u32 (decrypt_in_place sample_hw)
            (walk_end (decrypt_in_place sample_hw) (0x170 + info.pk11_offset)) ≥ 0x1000) ∧
      ((extract_warmboot_from_pkg1_ex sample_hw true).code = .WB_ERR_WB_SIZE_INVALID →
        info.size = load_u32 (decrypt_in_place sample_hw)
            (walk_end (decrypt_in_place sample_hw) (0x170 + info.pk11_offset)) ∧
        info.data = none) :=
  size_validation sample_hw (by decide) (by decide) (by decide) (by decide) (by decide)
    (by decide) (by decide)

theorem located_7000 (pkg1 : Mem) (h7 : has_pk11_magic pkg1 0x7000)
    (h4 : ¬ has_pk11_magic pkg1 0x4000) :
    located_pk11_offset pkg1 = some 0x7000 := by
  unfold located_pk11_offset
  rcases preferred_or (get_target_firmware_from_pkg1 pkg1) with ⟨hpf, hof⟩ | ⟨hpf, hof⟩
  · rw [hpf] at hof ⊢
    rw [hof, if_neg h4, if_pos h7]
  · rw [hpf, if_pos h7]

/-- C13 (counterexample): the round-trip container on revised hardware with
storage and decryption verification succeeding, and an allocator that refuses
the output buffer: the routine returns `WB_ERR_MALLOC_WB` and hands out no
buffer. -/
theorem roundtrip_fails_without_memory :
    is_mariko roundtrip_hw_no_memory = true ∧
    roundtrip_hw_no_memory.malloc_pkg1_ok = true ∧
    roundtrip_hw_no_memory.mmc_res = 0 ∧
    roundtrip_hw_no_memory.set_partition_ok = true ∧
    roundtrip_hw_no_memory.read_ok = true ∧
    bytes_at (ptr_add (decrypt_in_place roundtrip_hw_no_memory) 0x170) 0x20
      = bytes_at (ptr_add (decrypt_in_place roundtrip_hw_no_memory) 0x190) 0x20 ∧
    has_pk11_magic (ptr_add (decrypt_in_place roundtrip_hw_no_memory) 0x170) 0x7000 ∧
    ¬ has_pk11_magic (ptr_add (decrypt_in_place roundtrip_hw_no_memory) 0x170) 0x4000 ∧
    u32_index (decrypt_in_place roundtrip_hw_no_memory) (0x170 + 0x7000) 6 = 0x100 ∧
    load_u32 (decrypt_in_place roundtrip_hw_no_memory) (0x170 + 0x7020) = SIG_NX_BOOTLOADER ∧
    load_u32 (decrypt_in_place roundtrip_hw_no_memory) (0x170 + 0x7120) = 0x900 ∧
    roundtrip_hw_no_memory.malloc_wb_ok = false ∧
    (extract_warmboot_from_pkg1_ex roundtrip_hw_no_memory true).code = .WB_ERR_MALLOC_WB ∧
    (extract_warmboot_from_pkg1_ex roundtrip_hw_no_memory true).wb_info.map
        (fun info => info.data) = some none := by
  decide

/-- C13 (amended): for a decrypted container on revised hardware with storage,
decryption verification and the output allocation succeeding, with `PK11` at
offset `0x7000` and not at `0x4000`, header word 6 equal to `0x100`, the
bootloader signature at the walk start `0x7020` and the size word `0x900` at
`0x7120`: the routine returns `WB_SUCCESS` with a `0x900`-byte buffer whose
first 4 bytes encode `0x900` and whose other bytes are the `0x900 - 4` bytes
that follow the size word, whatever the version byte and date are. -/
theorem roundtrip_scenario (hw : Hw) (hm : is_mariko hw = true)
    (ha : hw.malloc_pkg1_ok = true) (hi : hw.mmc_res ≠ 2)
    (hp : hw.set_partition_ok = true) (hr : hw.read_ok = true)
    (hv : bytes_at (ptr_add (decrypt_in_place hw) 0x170) 0x20
        = bytes_at (ptr_add (decrypt_in_place hw) 0x190) 0x20)
    (hwb : hw.malloc_wb_ok = true)
    (h7 : has_pk11_magic (ptr_add (decrypt_in_place hw) 0x170) 0x7000)
    (h4 : ¬ has_pk11_magic (ptr_add (decrypt_in_place hw) 0x170) 0x4000)
    (hw6 : u32_index (decrypt_in_place hw) (0x170 + 0x7000) 6 = 0x100)
    (hs0 : load_u32 (decrypt_in_place hw) (0x170 + 0x7020) = SIG_NX_BOOTLOADER)
    (hs1 : load_u32 (decrypt_in_place hw) (0x170 + 0x7120) = 0x900) :
    (extract_warmboot_from_pkg1_ex hw true).code = .WB_SUCCESS ∧
    ∃ info data, (extract_warmboot_from_pkg1_ex hw true).wb_info = some info ∧
      info.data = some data ∧ info.size = 0x900 ∧ data.length = 0x900 ∧
      data.take 4 = le_bytes 0x900 ∧
      data.drop 4 = bytes_at (ptr_add (decrypt_in_place hw) (0x170 + 0x7124)) (0x900 - 4) := by
  have hloc := located_7000 _ h7 h4
  have hwe := roundtrip_walk_end (decrypt_in_place hw) hw6 hs0 hs1
  have e := extract_eq_locate hw hm ha hi hp hr hv
  rw [locate_eq_navigate hw _ _ 0x7000 hloc] at e
  have hcode : (extract_warmboot_from_pkg1_ex hw true).code = .WB_SUCCESS := by
    rw [e, navigate_success hw _ _ _ _ _ rfl (by rw [hwe, hs1]; decide)
      (by rw [hwe, hs1]; decide), hwb]
    rfl
  refine ⟨hcode, ?_⟩
  obtain ⟨info, hinfo, _, hsize, _, _, _, hsucc⟩ :=
    navigate_size hw (decrypt_in_place hw) (info_at_header hw (decrypt_in_place hw) 0x7000)
      (get_target_firmware_from_pkg1 (ptr_add (decrypt_in_place hw) 0x170)) (0x170 + 0x7000)
      (trace_before_verify hw ++ [.fuse_read_odm 6, .fuse_read_odm 7]) rfl
  rw [e] at hcode ⊢
  obtain ⟨hdata, _, _⟩ := hsucc hcode
  rw [hwe, hs1] at hdata hsize
  refine ⟨info, _, hinfo, hdata, hsize, by simp [load_bytes], ?_, ?_⟩
  · rw [load_bytes_take _ _ _ _ (by decide), ← le_bytes_load, hs1]
  · rw [load_bytes_no_wrap _ _ _ (by decide), bytes_at_drop, ptr_add_add]

theorem roundtrip_scenario_witness :
    (extract_warmboot_from_pkg1_ex roundtrip_hw true).code = .WB_SUCCESS ∧
    ∃ info data, (extract_warmboot_from_pkg1_ex roundtrip_hw true).wb_info = some info ∧
      info.data = some data ∧ info.size = 0x900 ∧ data.length = 0x900 ∧
      data.take 4 = le_bytes 0x900 ∧
      data.drop 4
        = bytes_at (ptr_add (decrypt_in_place roundtrip_hw) (0x170 + 0x7124)) (0x900 - 4) :=
  roundtrip_scenario roundtrip_hw (by decide) (by decide) (by decide) (by decide) (by decide)
    (by decide) (by decide) (by decide) (by decide) (by decide) (by decide) (by decide)

/-! ## Path naming -/

set_option maxRecDepth 100000

theorem s_printf_02x_byte : ∀ n : Fin 256,
    s_printf_02x n.val = [hex_digit (n.val / 16), hex_digit (n.val % 16)] := by
  decide

theorem hex_digit_inj : ∀ a b : Fin 16, hex_digit a.val = hex_digit b.val → a = b := by
  decide

theorem two_hex_digits_inj (a b : Byte) (h : two_hex_digits a.val = two_hex_digits b.val) :
    a = b := by
  unfold two_hex_digits at h
  have hl := congrArg String.data h
  simp only [List.cons.injEq, and_true] at hl
  have ha := a.isLt
  have hb := b.isLt
  have h1 := hex_digit_inj ⟨a.val / 16, by omega⟩ ⟨b.val / 16, by omega⟩ hl.1
  have h2 := hex_digit_inj ⟨a.val % 16, by omega⟩ ⟨b.val % 16, by omega⟩ hl.2
  have h1' : a.val / 16 = b.val / 16 := congrArg Fin.val h1
  have h2' : a.val % 16 = b.val % 16 := congrArg Fin.val h2
  apply Fin.ext
  omega

theorem get_warmboot_path_eq (hw : Hw) (path_size : Nat) (n : Byte) :
    get_warmboot_path hw path_size n
      = (if is_mariko hw then "sd:/warmboot_mariko" else "sd:/warmboot_erista")
          ++ "/wb_" ++ two_hex_digits n.val ++ ".bin" := by
  unfold get_warmboot_path two_hex_digits
  rw [s_printf_02x_byte n]
  cases is_mariko hw
  · apply String.ext
    simp [String.data_append]
  · apply String.ext
    simp [String.data_append]

/-- C14: for every 8-bit fuse count and each hardware family,
`get_warmboot_path` writes the family root (`sd:/warmboot_mariko` on revised,
`sd:/warmboot_erista` on legacy hardware) followed by `/wb_`, the count as
exactly two lowercase hexadecimal digits and `.bin`; the path determines the
family and the count; 22 on revised hardware gives
`sd:/warmboot_mariko/wb_16.bin`. -/
theorem get_warmboot_path_format (hw hw2 : Hw) (path_size path_size2 : Nat) (n n2 : Byte) :
    get_warmboot_path hw path_size n
      = (if is_mariko hw then "sd:/warmboot_mariko" else "sd:/warmboot_erista")
          ++ "/wb_" ++ two_hex_digits n.val ++ ".bin" ∧
    (two_hex_digits n.val).length = 2 ∧
    (get_warmboot_path hw path_size n = get_warmboot_path hw2 path_size2 n2 →
      is_mariko hw = is_mariko hw2 ∧ n = n2) ∧
    (is_mariko hw = true →
      get_warmboot_path hw path_size 22 = "sd:/warmboot_mariko/wb_16.bin") := by
  refine ⟨get_warmboot_path_eq hw path_size n, rfl, ?_, ?_⟩
  · intro h
    rw [get_warmboot_path_eq, get_warmboot_path_eq] at h
    have hd := congrArg String.data h
    simp only [String.data_append] at hd
    cases h1 : is_mariko hw <;> cases h2 : is_mariko hw2 <;> rw [h1, h2] at hd
    · simp only [Bool.false_eq_true, if_false, List.append_assoc,
        List.append_cancel_left_eq, List.append_cancel_right_eq] at hd
      exact ⟨rfl, two_hex_digits_inj n n2 (String.ext hd)⟩
    · exfalso
      simp only [Bool.false_eq_true, if_false, if_true, List.append_assoc] at hd
      exact absurd (List.append_inj hd rfl).1 (by decide)
    · exfalso
      simp only [Bool.false_eq_true, if_false, if_true, List.append_assoc] at hd
      exact absurd (List.append_inj hd rfl).1 (by decide)
    · simp only [if_true, List.append_assoc,
        List.append_cancel_left_eq, List.append_cancel_right_eq] at hd
      exact ⟨rfl, two_hex_digits_inj n n2 (String.ext hd)⟩
  · intro h
    unfold get_warmboot_path
    rw [h]
    decide

theorem get_warmboot_path_format_witness :
    get_warmboot_path sample_hw 256 22 = "sd:/warmboot_mariko/wb_16.bin" ∧
    get_warmboot_path erista_hw 256 0x0a
      = (if is_mariko erista_hw then "sd:/warmboot_mariko" else "sd:/warmboot_erista")
          ++ "/wb_" ++ two_hex_digits 0x0a ++ ".bin" :=
  ⟨(get_warmboot_path_format sample_hw sample_hw 256 256 22 22).2.2.2 (by decide),
   (get_warmboot_path_format erista_hw erista_hw 256 256 0x0a 0x0a).1⟩

/-! ## Hardware gate and resource discipline -/

/-- C15: on legacy hardware, for a non-null `wb_info`, the routine returns
`WB_ERR_ERISTA_NOT_SUPPORTED` having made the three fuse reads only (no
allocation, no storage call, no cipher call) and leaves a zeroed record with
`is_erista` set and `fuse_count` equal to the burnt fuse count; for a `NULL`
`wb_info` it returns `WB_ERR_NULL_INFO` having made no call at all, on every
hardware, legacy or revised. -/
theorem erista_gate (hw : Hw) :
    (is_mariko hw = false →
      extract_warmboot_from_pkg1_ex hw true =
        { code := .WB_ERR_ERISTA_NOT_SUPPORTED,
          wb_info := some { warmboot_info_t.zeroed with
            is_erista := true, fuse_count := get_burnt_fuses hw },
          trace := [.fuse_read_dramid, .fuse_read_odm 6, .fuse_read_odm 7] }) ∧
    extract_warmboot_from_pkg1_ex hw false =
      { code := .WB_ERR_NULL_INFO, wb_info := none, trace := [] } := by
  constructor
  · intro he
    simp [extract_warmboot_from_pkg1_ex, he]
  · simp [extract_warmboot_from_pkg1_ex]

theorem erista_gate_witness :
    is_mariko erista_hw = false ∧
    extract_warmboot_from_pkg1_ex erista_hw true =
      { code := .WB_ERR_ERISTA_NOT_SUPPORTED,
        wb_info := some { warmboot_info_t.zeroed with
          is_erista := true, fuse_count := get_burnt_fuses erista_hw },
        trace := [.fuse_read_dramid, .fuse_read_odm 6, .fuse_read_odm 7] } ∧
    get_burnt_fuses erista_hw = 10 ∧
    is_mariko sample_hw = true ∧
    extract_warmboot_from_pkg1_ex sample_hw false =
      { code := .WB_ERR_NULL_INFO, wb_info := none, trace := [] } :=
  ⟨by decide, (erista_gate erista_hw).1 (by decide), by decide, by decide,
   (erista_gate sample_hw).2⟩

theorem navigate_exit_shape (hw : Hw) (buf : Mem) (wb : warmboot_info_t)
    (target_fw pk11_ptr : Nat) (trace : List Event) :
    exit_shape (navigate_and_package hw buf wb target_fw pk11_ptr trace) trace := by
  unfold navigate_and_package exit_shape
  simp only []
  split_ifs <;> simp

theorem locate_exit_shape (hw : Hw) (buf : Mem) (wb : warmboot_info_t) (trace : List Event) :
    exit_shape (locate_pk11 hw buf wb trace)
      (trace ++ [.fuse_read_odm 6, .fuse_read_odm 7]) := by
  unfold locate_pk11
  simp only []
  split_ifs
  all_goals first
    | exact navigate_exit_shape _ _ _ _ _ _
    | exact Or.inl ⟨rfl, rfl⟩

/-- Every way the routine can end: the code together with the collaborator
calls made. -/
theorem extract_paths (hw : Hw) (given : Bool) :
    ((extract_warmboot_from_pkg1_ex hw given).code = .WB_ERR_NULL_INFO ∧
      (extract_warmboot_from_pkg1_ex hw given).trace = []) ∨
    ((extract_warmboot_from_pkg1_ex hw given).code = .WB_ERR_ERISTA_NOT_SUPPORTED ∧
      (extract_warmboot_from_pkg1_ex hw given).trace
        = [.fuse_read_dramid, .fuse_read_odm 6, .fuse_read_odm 7]) ∨
    ((extract_warmboot_from_pkg1_ex hw given).code = .WB_ERR_MALLOC_PKG1 ∧
      (extract_warmboot_from_pkg1_ex hw given).trace
        = [.fuse_read_dramid, .fuse_read_odm 6, .fuse_read_odm 7, .malloc_pkg1 false]) ∨
    ((extract_warmboot_from_pkg1_ex hw given).code = .WB_ERR_MMC_INIT ∧
      (extract_warmboot_from_pkg1_ex hw given).trace = trace_to_init hw ++ [.free_pkg1]) ∨
    ((extract_warmboot_from_pkg1_ex hw given).code = .WB_ERR_MMC_PARTITION ∧
      (extract_warmboot_from_pkg1_ex hw given).trace
        = trace_to_init hw
          ++ [.emummc_storage_set_mmc_partition, .emummc_storage_end, .free_pkg1]) ∨
    ((extract_warmboot_from_pkg1_ex hw given).code = .WB_ERR_MMC_READ ∧
      (extract_warmboot_from_pkg1_ex hw given).trace
        = trace_to_init hw
          ++ [.emummc_storage_set_mmc_partition, .emummc_storage_read,
              .emummc_storage_end, .free_pkg1]) ∨
    ((extract_warmboot_from_pkg1_ex hw given).code = .WB_ERR_DECRYPT_VERIFY ∧
      (extract_warmboot_from_pkg1_ex hw given).trace
        = trace_before_verify hw ++ [.free_pkg1]) ∨
    exit_shape (extract_warmboot_from_pkg1_ex hw given)
      (trace_before_verify hw ++ [.fuse_read_odm 6, .fuse_read_odm 7]) := by
  cases given
  · left
    simp [extract_warmboot_from_pkg1_ex]
  right
  by_cases hm : is_mariko hw = true
  swap
  · left
    simp [extract_warmboot_from_pkg1_ex, hm]
  right
  by_cases ha : hw.malloc_pkg1_ok = true
  swap
  · left
    simp [extract_warmboot_from_pkg1_ex, hm, ha]
  right
  by_cases hi : hw.mmc_res = 2
  · left
    simp only [extract_warmboot_from_pkg1_ex, hm, ha, hi, trace_to_init, Bool.not_true,
      Bool.false_eq_true, if_false, if_true, true_and]
    cases hw.emmc_initialized <;> simp
  right
  by_cases hp : hw.set_partition_ok = true
  swap
  · left
    simp only [extract_warmboot_from_pkg1_ex, hm, ha, hi, hp, trace_to_init, Bool.not_true,
      Bool.false_eq_true, if_false, if_true, true_and]
    cases hw.emmc_initialized <;> simp
  right
  by_cases hr : hw.read_ok = true
  swap
  · left
    simp only [extract_warmboot_from_pkg1_ex, hm, ha, hi, hp, hr, trace_to_init, Bool.not_true,
      Bool.false_eq_true, if_false, if_true, true_and]
    cases hw.emmc_initialized <;> simp
  right
  by_cases hv : bytes_at (ptr_add (decrypt_in_place hw) 0x170) 0x20
        = bytes_at (ptr_add (decrypt_in_place hw) 0x190) 0x20
  · right
    rw [extract_eq_locate hw hm ha hi hp hr hv]
    exact locate_exit_shape _ _ _ _
  · left
    obtain ⟨wb, trace, _, _, _, e⟩ := extract_reaches_verify hw hm ha hi hp hr
    have hmem : memcmp (ptr_add (decrypt_in_place hw) 0x170)
          (ptr_add (decrypt_in_place hw) (0x170 + 0x20)) 0x20 ≠ 0 :=
      fun h0 => hv ((memcmp_bytes _ _ _).mp h0)
    refine ⟨extract_verify_fail hw hm ha hi hp hr hv, ?_⟩
    simp only [extract_warmboot_from_pkg1_ex, hm, ha, hi, hp, hr, hmem, trace_before_verify,
      Bool.not_true, Bool.false_eq_true, if_false, if_true, ne_eq, not_false_eq_true]
    cases hw.emmc_initialized <;> simp

theorem leak_freedom_of_shape (o : Outcome) (b : Bool) (code : wb_extract_error_t)
    (tail : List Event)
    (hc : o.code = code)
    (ht : o.trace = [.fuse_read_dramid, .fuse_read_odm 6, .fuse_read_odm 7, .malloc_pkg1 true]
      ++ (if b then [.sdmmc_storage_end] else []) ++ tail)
    (h1 : tail.count .free_pkg1 = 1) (h2 : tail.count (.malloc_pkg1 true) = 0)
    (h3 : tail.getLast? = some .free_pkg1)
    (h4 : tail.count (.malloc_wb true) = if code = .WB_SUCCESS then 1 else 0) :
    o.trace.count .free_pkg1 = o.trace.count (.malloc_pkg1 true) ∧
    o.trace.count (.malloc_pkg1 true) ≤ 1 ∧
    (o.trace.count (.malloc_pkg1 true) = 1 → o.trace.getLast? = some .free_pkg1) ∧
    o.trace.count (.malloc_wb true) = (if o.code = .WB_SUCCESS then 1 else 0) := by
  have hne : tail ≠ [] := by
    intro h
    rw [h] at h3
    simp at h3
  obtain ⟨y, ys, rfl⟩ := List.exists_cons_of_ne_nil hne
  have hl : ∀ x : Event, (x :: y :: ys).getLast? = some .free_pkg1 := by
    intro x
    rw [List.getLast?_cons_cons]
    exact h3
  rw [hc, ht]
  cases b
  · simp only [Bool.false_eq_true, if_false, List.append_nil, List.cons_append,
      List.nil_append]
    refine ⟨?_, ?_, ?_, ?_⟩
    · simp [List.count_cons, h1, h2]
    · simp [List.count_cons, h2]
    · intro _
      simp only [List.getLast?_cons_cons]
      exact h3
    · simp [List.count_cons, h4]
  · simp only [if_true, List.cons_append, List.nil_append]
    refine ⟨?_, ?_, ?_, ?_⟩
    · simp [List.count_cons, h1, h2]
    · simp [List.count_cons, h2]
    · intro _
      simp only [List.getLast?_cons_cons]
      exact h3
    · simp [List.count_cons, h4]

/-- C16: on every exit path the container buffer, when it was allocated, is
released exactly once, by the last call the routine makes, and otherwise not
at all; the output buffer is allocated exactly on the `WB_SUCCESS` path. -/
theorem leak_freedom (hw : Hw) (given : Bool) :
    (extract_warmboot_from_pkg1_ex hw given).trace.count .free_pkg1
      = (extract_warmboot_from_pkg1_ex hw given).trace.count (.malloc_pkg1 true) ∧
    (extract_warmboot_from_pkg1_ex hw given).trace.count (.malloc_pkg1 true) ≤ 1 ∧
    ((extract_warmboot_from_pkg1_ex hw given).trace.count (.malloc_pkg1 true) = 1 →
      (extract_warmboot_from_pkg1_ex hw given).trace.getLast? = some .free_pkg1) ∧
    (extract_warmboot_from_pkg1_ex hw given).trace.count (.malloc_wb true)
      = (if (extract_warmboot_from_pkg1_ex hw given).code = .WB_SUCCESS then 1 else 0) := by
  have hp := extract_paths hw given
  generalize extract_warmboot_from_pkg1_ex hw given = o at *
  rcases hp with ⟨hc, ht⟩ | ⟨hc, ht⟩ | ⟨hc, ht⟩ | ⟨hc, ht⟩ | ⟨hc, ht⟩ | ⟨hc, ht⟩ | ⟨hc, ht⟩ | hs
  · rw [hc, ht]; decide
  · rw [hc, ht]; decide
  · rw [hc, ht]; decide
  · exact leak_freedom_of_shape o hw.emmc_initialized _
      [.usleep, .emummc_storage_init_mmc, .free_pkg1] hc
      (by rw [ht, trace_to_init]; simp) (by decide) (by decide) (by decide) (by decide)
  · exact leak_freedom_of_shape o hw.emmc_initialized _
      [.usleep, .emummc_storage_init_mmc, .emummc_storage_set_mmc_partition,
        .emummc_storage_end, .free_pkg1] hc
      (by rw [ht, trace_to_init]; simp) (by decide) (by decide) (by decide) (by decide)
  · exact leak_freedom_of_shape o hw.emmc_initialized _
      [.usleep, .emummc_storage_init_mmc, .emummc_storage_set_mmc_partition,
        .emummc_storage_read, .emummc_storage_end, .free_pkg1] hc
      (by rw [ht, trace_to_init]; simp) (by decide) (by decide) (by decide) (by decide)
  · exact leak_freedom_of_shape o hw.emmc_initialized _
      [.usleep, .emummc_storage_init_mmc, .emummc_storage_set_mmc_partition,
        .emummc_storage_read, .emummc_storage_end, .se_aes_iv_set, .se_aes_crypt_cbc,
        .free_pkg1] hc
      (by rw [ht, trace_before_verify]; simp) (by decide) (by decide) (by decide) (by decide)
  · rcases hs with ⟨hc, ht⟩ | ⟨hc, ht⟩ | ⟨hc, ht⟩ | ⟨hc, ht⟩
    · exact leak_freedom_of_shape o hw.emmc_initialized _
        [.usleep, .emummc_storage_init_mmc, .emummc_storage_set_mmc_partition,
          .emummc_storage_read, .emummc_storage_end, .se_aes_iv_set, .se_aes_crypt_cbc,
          .fuse_read_odm 6, .fuse_read_odm 7, .free_pkg1] hc
        (by rw [ht, trace_before_verify]; simp) (by decide) (by decide) (by decide) (by decide)
    · exact leak_freedom_of_shape o hw.emmc_initialized _
        [.usleep, .emummc_storage_init_mmc, .emummc_storage_set_mmc_partition,
          .emummc_storage_read, .emummc_storage_end, .se_aes_iv_set, .se_aes_crypt_cbc,
          .fuse_read_odm 6, .fuse_read_odm 7, .free_pkg1] hc
        (by rw [ht, trace_before_verify]; simp) (by decide) (by decide) (by decide) (by decide)
    · exact leak_freedom_of_shape o hw.emmc_initialized _
        [.usleep, .emummc_storage_init_mmc, .emummc_storage_set_mmc_partition,
          .emummc_storage_read, .emummc_storage_end, .se_aes_iv_set, .se_aes_crypt_cbc,
          .fuse_read_odm 6, .fuse_read_odm 7, .malloc_wb false, .free_pkg1] hc
        (by rw [ht, trace_before_verify]; simp) (by decide) (by decide) (by decide) (by decide)
    · exact leak_freedom_of_shape o hw.emmc_initialized _
        [.usleep, .emummc_storage_init_mmc, .emummc_storage_set_mmc_partition,
          .emummc_storage_read, .emummc_storage_end, .se_aes_iv_set, .se_aes_crypt_cbc,
          .fuse_read_odm 6, .fuse_read_odm 7, .malloc_wb true, .free_pkg1] hc
        (by rw [ht, trace_before_verify]; simp) (by decide) (by decide) (by decide) (by decide)

/-! ## The override parser -/

/-- C18: the file with the lines `0x100=1` and `0x1500=22`, in this order, is
stored as it stands: the first row has the lower firmware version, and the
lookup for firmware `0x1500` returns the fuse count 1 of the first row where
the builtin table gives 22. -/
theorem load_keeps_file_order :
    (load_wb_database_from_sd sscanf_two_lines sd_ascending FuseDb.initial).1 = true ∧
    (load_wb_database_from_sd sscanf_two_lines sd_ascending FuseDb.initial).2.stored
      = [{ firmware_version := 0x100, fuse_count := 1 },
         { firmware_version := 0x1500, fuse_count := 22 }] ∧
    ((load_wb_database_from_sd sscanf_two_lines sd_ascending FuseDb.initial).2.fuse_database
        0).firmware_version
      < ((load_wb_database_from_sd sscanf_two_lines sd_ascending FuseDb.initial).2.fuse_database
        1).firmware_version ∧
    get_expected_fuse_version
      (load_wb_database_from_sd sscanf_two_lines sd_ascending FuseDb.initial).2 0x1500 = 1 ∧
    hardcoded_fuse_version 0x1500 = 22 := by
  decide

/-! ## Burnt fuse count -/

theorem low_bits_sum_le (w n : Nat) : low_bits_sum w n ≤ n := by
  induction n with
  | zero => exact Nat.le_refl _
  | succ n ih =>
    unfold low_bits_sum
    have : w / 2 ^ n % 2 < 2 := Nat.mod_lt _ (by decide)
    omega

theorem low_bits_sum_shift (w n : Nat) :
    low_bits_sum w (n + 1) = w % 2 + low_bits_sum (w / 2) n := by
  induction n with
  | zero => simp [low_bits_sum]
  | succ n ih =>
    rw [low_bits_sum, ih, low_bits_sum]
    have : w / 2 / 2 ^ n = w / 2 ^ (n + 1) := by
      rw [Nat.div_div_eq_div_mul, pow_succ, Nat.mul_comm]
    rw [this]
    omega

theorem low_bits_sum_eq_popcount : ∀ (n w : Nat), w < 2 ^ n → low_bits_sum w n = popcount w := by
  intro n
  induction n with
  | zero =>
    intro w h
    have : w = 0 := by simpa using h
    subst this
    simp [low_bits_sum, popcount]
  | succ n ih =>
    intro w h
    rw [low_bits_sum_shift]
    by_cases hw : w = 0
    · subst hw
      have := ih 0 (by positivity)
      simp only [Nat.zero_div, Nat.zero_mod, Nat.zero_add]
      rw [this]
    · have hlt : w / 2 < 2 ^ n := by
        rw [pow_succ] at h
        omega
      rw [ih (w / 2) hlt]
      unfold popcount
      rw [Nat.digits_def' (by decide) (Nat.pos_of_ne_zero hw), List.sum_cons]

theorem count_fuse_bits_val (w : Nat) (c : Byte) (n : Nat) :
    ((List.range n).foldl
        (fun count i => if (w >>> i) &&& 1 ≠ 0 then count + 1 else count) c).val
      = (c.val + low_bits_sum w n) % 256 := by
  induction n with
  | zero =>
    simp only [List.range_zero, List.foldl_nil, low_bits_sum, Nat.add_zero]
    exact (Nat.mod_eq_of_lt c.isLt).symm
  | succ n ih =>
    rw [List.range_succ, List.foldl_append, List.foldl_cons, List.foldl_nil, low_bits_sum]
    have hb : (w >>> n) &&& 1 = w / 2 ^ n % 2 := by
      rw [Nat.shiftRight_eq_div_pow, Nat.and_one_is_mod]
    rw [hb]
    have h2 : w / 2 ^ n % 2 < 2 := Nat.mod_lt _ (by decide)
    by_cases hbit : w / 2 ^ n % 2 = 0
    · rw [if_neg (not_not.mpr hbit), ih, hbit, Nat.add_zero]
    · rw [if_pos hbit, Fin.val_add, ih]
      have h1 : w / 2 ^ n % 2 = 1 := by omega
      rw [h1]
      simp only [Fin.val_one]
      omega

/-- C19: for 32-bit fuse words, `get_burnt_fuses` is
`popcount odm6 + popcount odm7`; the value is at most 64, so the `u8` counter
does not wrap. -/
theorem get_burnt_fuses_popcount (hw : Hw) (h6 : hw.odm6 < 2 ^ 32) (h7 : hw.odm7 < 2 ^ 32) :
    (get_burnt_fuses hw).val = popcount hw.odm6 + popcount hw.odm7 ∧
    popcount hw.odm6 + popcount hw.odm7 ≤ 64 := by
  have e6 := low_bits_sum_eq_popcount 32 hw.odm6 h6
  have e7 := low_bits_sum_eq_popcount 32 hw.odm7 h7
  have l6 := low_bits_sum_le hw.odm6 32
  have l7 := low_bits_sum_le hw.odm7 32
  unfold get_burnt_fuses count_fuse_bits
  rw [count_fuse_bits_val, count_fuse_bits_val, ← e6, ← e7]
  simp only [Fin.val_zero, Nat.zero_add]
  omega

theorem get_burnt_fuses_popcount_witness :
    (get_burnt_fuses sample_hw).val = popcount sample_hw.odm6 + popcount sample_hw.odm7 ∧
    (get_burnt_fuses sample_hw).val = 10 :=
  ⟨(get_burnt_fuses_popcount sample_hw (by decide) (by decide)).1, by decide⟩

/-! ## The layout diagnostic -/

theorem load_u8_agree (a b : Mem) (d x : Nat) (hag : agree_off a b d)
    (h : ¬ (d ≤ x % 2 ^ 32 ∧ x % 2 ^ 32 < d + 4)) : load_u8 a x = load_u8 b x :=
  hag _ h

theorem load_u32_agree (a b : Mem) (d addr : Nat) (hag : agree_off a b d)
    (h : avoids d addr 4) : load_u32 a addr = load_u32 b addr := by
  unfold load_u32
  rw [load_u8_agree a b d addr hag (by simpa using h 0 (by decide)),
    load_u8_agree a b d (addr + 1) hag (h 1 (by decide)),
    load_u8_agree a b d (addr + 2) hag (h 2 (by decide)),
    load_u8_agree a b d (addr + 3) hag (h 3 (by decide))]

theorem load_bytes_agree (a b : Mem) (d addr n : Nat) (hag : agree_off a b d)
    (h : avoids d addr n) : load_bytes a addr n = load_bytes b addr n := by
  unfold load_bytes
  apply List.map_congr_left
  intro k hk
  rw [List.mem_range] at hk
  exact load_u8_agree a b d _ hag (h k hk)

theorem avoids_mono (d addr n m : Nat) (h : avoids d addr n) (hm : m ≤ n) : avoids d addr m :=
  fun k hk => h k (by omega)

theorem bytes_at_agree (a b : Mem) (d x n : Nat) (hag : agree_off a b d)
    (h : x + n ≤ d ∨ d + 4 ≤ x) : bytes_at (ptr_add a x) n = bytes_at (ptr_add b x) n := by
  unfold bytes_at
  apply List.map_congr_left
  intro k hk
  rw [List.mem_range] at hk
  simp only [ptr_add]
  exact hag _ (by omega)

theorem skip_bytes_agree (a b : Mem) (p g : Nat)
    (h4 : u32_index a p 4 = u32_index b p 4) (h6 : u32_index a p 6 = u32_index b p 6) :
    skip_bytes a p g = skip_bytes b p g := by
  unfold skip_bytes slot_of
  split_ifs <;> simp [h4, h6]

theorem nav_loop_agree (a b : Mem) (p d : Nat) (hag : agree_off a b d)
    (h4 : u32_index a p 4 = u32_index b p 4) (h6 : u32_index a p 6 = u32_index b p 6)
    (hr : ∀ r, r ∈ (nav_loop a p 3 (nav_start p [0, 0, 0])).reads → avoids d r 4) :
    nav_loop b p 3 (nav_start p [0, 0, 0]) = nav_loop a p 3 (nav_start p [0, 0, 0]) := by
  have hsk : ∀ g, skip_bytes b p g = skip_bytes a p g :=
    fun g => (skip_bytes_agree a b p g h4 h6).symm
  rw [nav_loop_three a p 0 0 0 _ _ _ _ _ _ _ rfl rfl rfl rfl rfl rfl rfl] at hr ⊢
  rw [nav_loop_three b p 0 0 0 _ _ _ _ _ _ _ rfl rfl rfl rfl rfl rfl rfl]
  simp only [hsk]
  generalize u32_ptr_add p (0x20 / 4) = c0 at hr ⊢
  have e0 : load_u32 b c0 = load_u32 a c0 :=
    (load_u32_agree a b d c0 hag (hr c0 (by split_ifs <;> simp))).symm
  rw [e0]
  generalize load_u32 a c0 = g0 at hr ⊢
  by_cases h0 : recognized g0
  swap
  · simp only [h0, not_false_eq_true, if_true]
  simp only [h0, not_true_eq_false, if_false] at hr ⊢
  generalize (c0 + skip_bytes a p g0) % 2 ^ 32 = c1 at hr ⊢
  have e1 : load_u32 b c1 = load_u32 a c1 :=
    (load_u32_agree a b d c1 hag (hr c1 (by split_ifs <;> simp))).symm
  rw [e1]
  generalize load_u32 a c1 = g1 at hr ⊢
  by_cases h1 : recognized g1
  swap
  · simp only [h1, not_false_eq_true, if_true]
  simp only [h1, not_true_eq_false, if_false] at hr ⊢
  generalize (c1 + skip_bytes a p g1) % 2 ^ 32 = c2 at hr ⊢
  have e2 : load_u32 b c2 = load_u32 a c2 :=
    (load_u32_agree a b d c2 hag (hr c2 (by split_ifs <;> simp))).symm
  rw [e2]

theorem final_read_length_ge (s : Nat) : 4 ≤ final_read_length s := by
  unfold final_read_length WARMBOOT_MIN_SIZE WARMBOOT_MAX_SIZE
  split_ifs <;> omega

theorem navigate_agree (hw hw2 : Hw) (a b : Mem) (wb : warmboot_info_t)
    (header2 : List Nat) (target_fw p d : Nat) (trace : List Event)
    (hmw : hw2.malloc_wb_ok = hw.malloc_wb_ok)
    (hag : agree_off a b d)
    (h4 : u32_index a p 4 = u32_index b p 4) (h6 : u32_index a p 6 = u32_index b p 6)
    (hsf : wb.sig_found = List.replicate 3 0)
    (hh : header2.set 1 0 = wb.pk11_header.set 1 0)
    (hr : ∀ r, r ∈ (nav_loop a p 3 (nav_start p [0, 0, 0])).reads → avoids d r 4)
    (hf : avoids d (walk_end a p) (final_read_length (load_u32 a (walk_end a p)))) :
    without_layout
        (navigate_and_package hw2 b { wb with pk11_header := header2 } target_fw p trace)
      = without_layout (navigate_and_package hw a wb target_fw p trace) := by
  have hnav := nav_loop_agree a b p d hag h4 h6 hr
  have hsize : load_u32 b (walk_end a p) = load_u32 a (walk_end a p) :=
    (load_u32_agree a b d _ hag (avoids_mono _ _ _ _ hf (final_read_length_ge _))).symm
  unfold walk_end at hf hsize
  have e3 : List.replicate 3 0 = [0, 0, 0] := rfl
  rw [e3] at hf hsize
  unfold navigate_and_package without_layout
  simp only [hsf, e3, hnav, hsize, hmw, WARMBOOT_MIN_SIZE, WARMBOOT_MAX_SIZE]
  generalize nav_loop a p 3 (nav_start p [0, 0, 0]) = st at hf hsize ⊢
  generalize hs : load_u32 a st.pk11_data = s at hf hsize ⊢
  by_cases hinv : s < 0x800 ∨ s ≥ 0x1000
  · simp only [if_pos hinv]
    split_ifs <;> simp [hh]
  · simp only [if_neg hinv]
    have hlen : final_read_length s = s := by
      unfold final_read_length WARMBOOT_MIN_SIZE WARMBOOT_MAX_SIZE
      rw [if_neg hinv]
    rw [hlen] at hf
    have hb16 : load_bytes b st.pk11_data 16 = load_bytes a st.pk11_data 16 :=
      (load_bytes_agree a b d _ _ hag (avoids_mono _ _ _ _ hf (by omega))).symm
    have hbs : load_bytes b st.pk11_data s = load_bytes a st.pk11_data s :=
      (load_bytes_agree a b d _ _ hag hf).symm
    rw [hb16, hbs]
    cases hw.malloc_wb_ok <;> (split_ifs <;> simp [hh])

theorem get_target_firmware_congr (p q : Mem) (hv : p 0x1F = q 0x1F)
    (hd : bytes_at (ptr_add p 0x10) 8 = bytes_at (ptr_add q 0x10) 8) :
    get_target_firmware_from_pkg1 p = get_target_firmware_from_pkg1 q := by
  have hm : ∀ s, memcmp (ptr_add p 0x10) (cstr s) 8 = 0 ↔ memcmp (ptr_add q 0x10) (cstr s) 8 = 0 := by
    intro s
    rw [memcmp_eq_zero_iff, memcmp_eq_zero_iff]
    have hb : ∀ i, i < 8 → ptr_add p 0x10 i = ptr_add q 0x10 i := by
      intro i hi
      have h3 : (bytes_at (ptr_add p 0x10) 8)[i]? = (bytes_at (ptr_add q 0x10) 8)[i]? := by
        rw [hd]
      simpa [bytes_at, hi] using h3
    constructor
    · intro H i hi
      rw [← hb i hi]
      exact H i hi
    · intro H i hi
      rw [hb i hi]
      exact H i hi
  unfold get_target_firmware_from_pkg1
  simp only [hv, hm]

theorem located_offset_cases (pkg1 : Mem) (off : Nat)
    (h : located_pk11_offset pkg1 = some off) : off = 0x4000 ∨ off = 0x7000 := by
  unfold located_pk11_offset at h
  rcases preferred_or (get_target_firmware_from_pkg1 pkg1) with ⟨hpf, hof⟩ | ⟨hpf, hof⟩
  · rw [hpf] at hof h
    rw [hof] at h
    split_ifs at h
    · left; exact (Option.some.inj h).symm
    · right; exact (Option.some.inj h).symm
  · rw [hpf] at hof h
    rw [hof] at h
    split_ifs at h
    · right; exact (Option.some.inj h).symm
    · left; exact (Option.some.inj h).symm

theorem has_pk11_magic_agree (a b : Mem) (off o : Nat) (hag : agree_off a b (0x170 + off + 4))
    (hoff : off = 0x4000 ∨ off = 0x7000) (ho : o = 0x4000 ∨ o = 0x7000) :
    has_pk11_magic (ptr_add a 0x170) o ↔ has_pk11_magic (ptr_add b 0x170) o := by
  unfold has_pk11_magic
  rw [ptr_add_add, ptr_add_add, bytes_at_agree a b _ _ 4 hag (by omega)]

theorem located_agree (a b : Mem) (off : Nat) (hag : agree_off a b (0x170 + off + 4))
    (hfw : get_target_firmware_from_pkg1 (ptr_add b 0x170)
      = get_target_firmware_from_pkg1 (ptr_add a 0x170))
    (h : located_pk11_offset (ptr_add a 0x170) = some off) :
    located_pk11_offset (ptr_add b 0x170) = some off := by
  have hoff := located_offset_cases _ _ h
  unfold located_pk11_offset at h ⊢
  rw [hfw]
  have hpo : ∀ o, (o = 0x4000 ∨ o = 0x7000) →
      (has_pk11_magic (ptr_add b 0x170) o ↔ has_pk11_magic (ptr_add a 0x170) o) :=
    fun o ho => (has_pk11_magic_agree a b off o hag hoff ho).symm
  rcases preferred_or (get_target_firmware_from_pkg1 (ptr_add a 0x170)) with ⟨hpf, hof⟩ | ⟨hpf, hof⟩
  · rw [hpf] at hof h ⊢
    rw [hof] at h ⊢
    simp only [hpo 0x4000 (Or.inl rfl), hpo 0x7000 (Or.inr rfl)]
    exact h
  · rw [hpf] at hof h ⊢
    rw [hof] at h ⊢
    simp only [hpo 0x4000 (Or.inl rfl), hpo 0x7000 (Or.inr rfl)]
    exact h

theorem header_word_agree (a b : Mem) (off i : Nat) (hag : agree_off a b (0x170 + off + 4))
    (hoff : off = 0x4000 ∨ off = 0x7000) (hi : i < 8) (h1 : i ≠ 1) :
    u32_index b (0x170 + off) i = u32_index a (0x170 + off) i := by
  unfold u32_index
  refine (load_u32_agree a b _ _ hag ?_).symm
  intro k hk
  rw [Nat.mod_eq_of_lt (by omega)]
  omega

theorem get_burnt_fuses_congr (hw hw2 : Hw) (h6 : hw2.odm6 = hw.odm6) (h7 : hw2.odm7 = hw.odm7) :
    get_burnt_fuses hw2 = get_burnt_fuses hw := by
  unfold get_burnt_fuses
  rw [h6, h7]

theorem header_set_agree (a b : Mem) (off : Nat) (hag : agree_off a b (0x170 + off + 4))
    (hoff : off = 0x4000 ∨ off = 0x7000) :
    ((List.range 8).map (fun i => u32_index b (0x170 + off) i)).set 1 0
      = ((List.range 8).map (fun i => u32_index a (0x170 + off) i)).set 1 0 := by
  have e : List.range 8 = [0, 1, 2, 3, 4, 5, 6, 7] := rfl
  rw [e]
  simp only [List.map_cons, List.map_nil, List.set_cons_succ, List.set_cons_zero]
  rw [header_word_agree a b off 0 hag hoff (by decide) (by decide),
    header_word_agree a b off 2 hag hoff (by decide) (by decide),
    header_word_agree a b off 3 hag hoff (by decide) (by decide),
    header_word_agree a b off 4 hag hoff (by decide) (by decide),
    header_word_agree a b off 5 hag hoff (by decide) (by decide),
    header_word_agree a b off 6 hag hoff (by decide) (by decide),
    header_word_agree a b off 7 hag hoff (by decide) (by decide)]

theorem navigate_layout_type (hw : Hw) (buf : Mem) (wb : warmboot_info_t)
    (target_fw p : Nat) (trace : List Event) (hsf : wb.sig_found = List.replicate 3 0) :
    (navigate_and_package hw buf wb target_fw p trace).wb_info.map
        (fun info => info.debug_layout_type)
      = some (if u32_index buf p 1 = load_u32 buf (walk_end buf p)
            ∧ 0x800 ≤ u32_index buf p 1 ∧ u32_index buf p 1 < 0x1000 then 1 else 2) := by
  unfold navigate_and_package walk_end
  rw [hsf]
  simp only [WARMBOOT_MIN_SIZE, WARMBOOT_MAX_SIZE, ge_iff_le]
  split_ifs <;> rfl

/-- C20 (amended): two runs in the same environment whose decrypted containers
differ only in header word 1 (the 4 bytes at located-header offset 4), where
neither a signature load of the walk nor the bytes read at the final cursor
touch those 4 bytes, end alike: the same code, calls, output bytes, size,
`pk11_offset`, `sig_found`, `debug_ptr_offset` and every other field; only
`debug_layout_type` (1 when word 1 equals the size word and lies in
`[0x800, 0x1000)`, else 2) and the recorded `pk11_header[1]` may differ. -/
theorem layout_is_informational (hw hw2 : Hw) (off : Nat)
    (henv : same_environment hw hw2)
    (hm : is_mariko hw = true) (ha : hw.malloc_pkg1_ok = true) (hi : hw.mmc_res ≠ 2)
    (hp : hw.set_partition_ok = true) (hr : hw.read_ok = true)
    (hv : bytes_at (ptr_add (decrypt_in_place hw) 0x170) 0x20
        = bytes_at (ptr_add (decrypt_in_place hw) 0x190) 0x20)
    (hloc : located_pk11_offset (ptr_add (decrypt_in_place hw) 0x170) = some off)
    (hag : agree_off (decrypt_in_place hw) (decrypt_in_place hw2) (0x170 + off + 4))
    (hreads : ∀ r, r ∈ (nav_loop (decrypt_in_place hw) (0x170 + off) 3
        (nav_start (0x170 + off) [0, 0, 0])).reads → avoids (0x170 + off + 4) r 4)
    (hfinal : avoids (0x170 + off + 4) (walk_end (decrypt_in_place hw) (0x170 + off))
        (final_read_length
          (load_u32 (decrypt_in_place hw) (walk_end (decrypt_in_place hw) (0x170 + off))))) :
    without_layout (extract_warmboot_from_pkg1_ex hw2 true)
      = without_layout (extract_warmboot_from_pkg1_ex hw true) ∧
    (extract_warmboot_from_pkg1_ex hw true).wb_info.map (fun info => info.debug_layout_type)
      = some (if u32_index (decrypt_in_place hw) (0x170 + off) 1
              = load_u32 (decrypt_in_place hw) (walk_end (decrypt_in_place hw) (0x170 + off))
            ∧ 0x800 ≤ u32_index (decrypt_in_place hw) (0x170 + off) 1
            ∧ u32_index (decrypt_in_place hw) (0x170 + off) 1 < 0x1000 then 1 else 2) := by
  obtain ⟨e1, e2, e3, e4, e5, e6, e7, e8, e9⟩ := henv
  have hoff := located_offset_cases _ _ hloc
  have hm2 : is_mariko hw2 = true := by
    unfold is_mariko at hm ⊢
    rw [e1]; exact hm
  have hv2 : bytes_at (ptr_add (decrypt_in_place hw2) 0x170) 0x20
        = bytes_at (ptr_add (decrypt_in_place hw2) 0x190) 0x20 := by
    rw [← bytes_at_agree _ _ _ 0x170 0x20 hag (by omega),
      ← bytes_at_agree _ _ _ 0x190 0x20 hag (by omega)]
    exact hv
  have hfw : get_target_firmware_from_pkg1 (ptr_add (decrypt_in_place hw2) 0x170)
      = get_target_firmware_from_pkg1 (ptr_add (decrypt_in_place hw) 0x170) := by
    apply get_target_firmware_congr
    · exact (hag _ (by omega)).symm
    · rw [ptr_add_add, ptr_add_add]
      exact (bytes_at_agree _ _ _ _ 8 hag (by omega)).symm
  have hloc2 := located_agree _ _ off hag hfw hloc
  have hbf := get_burnt_fuses_congr hw hw2 e2 e3
  have htr : trace_before_verify hw2 = trace_before_verify hw := by
    unfold trace_before_verify
    rw [e4]
  rw [extract_eq_locate hw hm ha hi hp hr hv, locate_eq_navigate hw _ _ off hloc,
    extract_eq_locate hw2 hm2 (by rw [e5]; exact ha) (by rw [e6]; exact hi)
      (by rw [e7]; exact hp) (by rw [e8]; exact hr) hv2,
    locate_eq_navigate hw2 _ _ off hloc2, hfw, htr]
  refine ⟨?_, navigate_layout_type _ _ _ _ _ _ rfl⟩
  have hinfo : info_at_header hw2 (decrypt_in_place hw2) off
      = { info_at_header hw (decrypt_in_place hw) off with
          pk11_header := (List.range 8).map
            (fun i => u32_index (decrypt_in_place hw2) (0x170 + off) i) } := by
    unfold info_at_header info_after_gate is_mariko
    rw [hbf, e1, hfw, ptr_add_add, ptr_add_add,
      ← bytes_at_agree _ _ _ _ 8 hag (by omega)]
    have hver : ptr_add (decrypt_in_place hw2) 0x170 0x1F
        = ptr_add (decrypt_in_place hw) 0x170 0x1F := (hag _ (by omega)).symm
    rw [hver]
  rw [hinfo]
  exact navigate_agree hw hw2 _ _ (info_at_header hw (decrypt_in_place hw) off) _ _ _ _ _ e9 hag
    (header_word_agree _ _ off 4 hag hoff (by decide) (by decide)).symm
    (header_word_agree _ _ off 6 hag hoff (by decide) (by decide)).symm
    rfl (header_set_agree _ _ off hag hoff) hreads hfinal

theorem put_u32_agree (m : Mem) (d v : Nat) : agree_off m (put_u32 d v m) d := by
  intro i hi
  unfold put_u32
  rw [if_neg (by omega), if_neg (by omega), if_neg (by omega), if_neg (by omega)]

theorem decrypt_identity (hw : Hw) (h : hw.se_aes_crypt_cbc = fun _ _ src _ => src) :
    decrypt_in_place hw = hw.ram := by
  funext i
  unfold decrypt_in_place
  rw [h]
  split_ifs with hc
  · simp only [ptr_add]
    congr 1
    omega
  · rfl

theorem layout_agree :
    agree_off (decrypt_in_place layout_hw) (decrypt_in_place layout_hw_other)
      (0x170 + 0x7000 + 4) := by
  rw [decrypt_identity layout_hw rfl, decrypt_identity layout_hw_other rfl]
  exact put_u32_agree layout_ram _ _

/-- C20 (counterexample): two containers that differ only in header word 1,
with header word 6 equal to `0xFFFFFFE4`: the second signature load is made at
header word 1 itself, the walks part there, both final cursors lie clear of
header word 1, and the routine returns `WB_SUCCESS` for one container and
`WB_ERR_WB_SIZE_INVALID` for the other. -/
theorem layout_word_read_as_signature :
    agree_off (decrypt_in_place layout_hw) (decrypt_in_place layout_hw_other)
      (0x170 + 0x7000 + 4) ∧
    located_pk11_offset (ptr_add (decrypt_in_place layout_hw) 0x170) = some 0x7000 ∧
    located_pk11_offset (ptr_add (decrypt_in_place layout_hw_other) 0x170) = some 0x7000 ∧
    u32_index (decrypt_in_place layout_hw) (0x170 + 0x7000) 6 = 0xFFFFFFE4 ∧
    (nav_loop (decrypt_in_place layout_hw) (0x170 + 0x7000) 3
        (nav_start (0x170 + 0x7000) [0, 0, 0])).reads
      = [0x170 + 0x7020, 0x170 + 0x7004, 0x170 + 0x7104] ∧
    (nav_loop (decrypt_in_place layout_hw_other) (0x170 + 0x7000) 3
        (nav_start (0x170 + 0x7000) [0, 0, 0])).reads
      = [0x170 + 0x7020, 0x170 + 0x7004, 0x170 + 0x6FE8] ∧
    walk_end (decrypt_in_place layout_hw) (0x170 + 0x7000) = 0x170 + 0x7104 ∧
    load_u32 (decrypt_in_place layout_hw) (0x170 + 0x7104) = 0x900 ∧
    walk_end (decrypt_in_place layout_hw_other) (0x170 + 0x7000) = 0x170 + 0x6FE8 ∧
    load_u32 (decrypt_in_place layout_hw_other) (0x170 + 0x6FE8) = 0 ∧
    (extract_warmboot_from_pkg1_ex layout_hw true).code = .WB_SUCCESS ∧
    (extract_warmboot_from_pkg1_ex layout_hw_other true).code = .WB_ERR_WB_SIZE_INVALID :=
  ⟨layout_agree, by decide, by decide, by decide, by decide, by decide, by decide, by decide,
    by decide, by decide, by decide, by decide⟩

theorem roundtrip_agree :
    agree_off (decrypt_in_place roundtrip_hw) (decrypt_in_place roundtrip_hw_other)
      (0x170 + 0x7000 + 4) := by
  rw [decrypt_identity roundtrip_hw rfl, decrypt_identity roundtrip_hw_other rfl]
  exact put_u32_agree roundtrip_ram _ _

theorem roundtrip_reads_avoid :
    ∀ r, r ∈ (nav_loop (decrypt_in_place roundtrip_hw) (0x170 + 0x7000) 3
        (nav_start (0x170 + 0x7000) [0, 0, 0])).reads → avoids (0x170 + 0x7000 + 4) r 4 := by
  have e : (nav_loop (decrypt_in_place roundtrip_hw) (0x170 + 0x7000) 3
        (nav_start (0x170 + 0x7000) [0, 0, 0])).reads = [0x170 + 0x7020, 0x170 + 0x7120] := by
    decide
  rw [e]
  intro r hr k hk
  simp only [List.mem_cons, List.mem_singleton, List.not_mem_nil, or_false] at hr
  rcases hr with rfl | rfl <;> omega

theorem roundtrip_final_avoids :
    avoids (0x170 + 0x7000 + 4) (walk_end (decrypt_in_place roundtrip_hw) (0x170 + 0x7000))
      (final_read_length (load_u32 (decrypt_in_place roundtrip_hw)
        (walk_end (decrypt_in_place roundtrip_hw) (0x170 + 0x7000)))) := by
  have e : walk_end (decrypt_in_place roundtrip_hw) (0x170 + 0x7000) = 0x170 + 0x7120 := by
    decide
  have e2 : load_u32 (decrypt_in_place roundtrip_hw) (0x170 + 0x7120) = 0x900 := by decide
  have e3 : final_read_length 0x900 = 0x900 := by decide
  rw [e, e2, e3]
  intro k hk
  omega

theorem layout_is_informational_witness :
    without_layout (extract_warmboot_from_pkg1_ex roundtrip_hw_other true)
      = without_layout (extract_warmboot_from_pkg1_ex roundtrip_hw true) ∧
    (extract_warmboot_from_pkg1_ex roundtrip_hw true).wb_info.map
        (fun info => info.debug_layout_type) = some 2 ∧
    (extract_warmboot_from_pkg1_ex roundtrip_hw_other true).wb_info.map
        (fun info => info.debug_layout_type) = some 1 :=
  ⟨(layout_is_informational roundtrip_hw roundtrip_hw_other 0x7000
      (by unfold same_environment; decide) (by decide) (by decide) (by decide) (by decide)
      (by decide) (by decide) (by decide) roundtrip_agree roundtrip_reads_avoid
      roundtrip_final_avoids).1,
    by decide, by decide⟩

/-! ## Storage initialisation -/

theorem locate_mmc_res (hw : Hw) (r : Int) (buf : Mem) (wb : warmboot_info_t)
    (trace : List Event) :
    locate_pk11 { hw with mmc_res := r } buf wb trace = locate_pk11 hw buf wb trace := rfl

theorem extract_mmc_res (hw : Hw) (r : Int) (hi : hw.mmc_res ≠ 2) (hr : r ≠ 2) :
    extract_warmboot_from_pkg1_ex { hw with mmc_res := r } true
      = extract_warmboot_from_pkg1_ex hw true := by
  unfold extract_warmboot_from_pkg1_ex
  have h1 : is_mariko { hw with mmc_res := r } = is_mariko hw := rfl
  have h2 : get_burnt_fuses { hw with mmc_res := r } = get_burnt_fuses hw := rfl
  have h3 : decrypt_in_place { hw with mmc_res := r } = decrypt_in_place hw := rfl
  simp only [h1, h2, h3, hi, hr, locate_mmc_res, if_false]

theorem extract_code_ne_mmc_init (hw : Hw) (hm : is_mariko hw = true)
    (ha : hw.malloc_pkg1_ok = true) (hi : hw.mmc_res ≠ 2) :
    (extract_warmboot_from_pkg1_ex hw true).code ≠ .WB_ERR_MMC_INIT := by
  by_cases hp : hw.set_partition_ok = true
  swap
  · simp [extract_warmboot_from_pkg1_ex, hm, ha, hi, hp]
  by_cases hr : hw.read_ok = true
  swap
  · simp [extract_warmboot_from_pkg1_ex, hm, ha, hi, hp, hr]
  by_cases hv : bytes_at (ptr_add (decrypt_in_place hw) 0x170) 0x20
        = bytes_at (ptr_add (decrypt_in_place hw) 0x190) 0x20
  · rw [extract_eq_locate hw hm ha hi hp hr hv]
    rcases locate_exit_shape hw (decrypt_in_place hw) (info_after_gate hw)
      (trace_before_verify hw) with h | h | h | h <;> rw [h.1] <;> decide
  · rw [extract_verify_fail hw hm ha hi hp hr hv]
    decide

theorem extract_trace_partition (hw : Hw) (hm : is_mariko hw = true)
    (ha : hw.malloc_pkg1_ok = true) (hi : hw.mmc_res ≠ 2) :
    Event.emummc_storage_set_mmc_partition ∈ (extract_warmboot_from_pkg1_ex hw true).trace ∧
    (hw.set_partition_ok = true →
      Event.emummc_storage_read ∈ (extract_warmboot_from_pkg1_ex hw true).trace) := by
  by_cases hp : hw.set_partition_ok = true
  swap
  · simp [extract_warmboot_from_pkg1_ex, hm, ha, hi, hp]
  by_cases hr : hw.read_ok = true
  swap
  · simp [extract_warmboot_from_pkg1_ex, hm, ha, hi, hp, hr]
  have hin : Event.emummc_storage_set_mmc_partition ∈ trace_before_verify hw ∧
      Event.emummc_storage_read ∈ trace_before_verify hw := by
    unfold trace_before_verify
    simp
  by_cases hv : bytes_at (ptr_add (decrypt_in_place hw) 0x170) 0x20
        = bytes_at (ptr_add (decrypt_in_place hw) 0x190) 0x20
  · rw [extract_eq_locate hw hm ha hi hp hr hv]
    rcases locate_exit_shape hw (decrypt_in_place hw) (info_after_gate hw)
      (trace_before_verify hw) with h | h | h | h <;> rw [h.2] <;>
      simp only [List.mem_append] <;> exact ⟨Or.inl (Or.inl hin.1), fun _ => Or.inl (Or.inl hin.2)⟩
  · have hpaths := extract_paths hw true
    have hcode := extract_verify_fail hw hm ha hi hp hr hv
    rcases hpaths with h | h | h | h | h | h | h | h
    · exact absurd (hcode.symm.trans h.1) (by decide)
    · exact absurd (hcode.symm.trans h.1) (by decide)
    · exact absurd (hcode.symm.trans h.1) (by decide)
    · exact absurd (hcode.symm.trans h.1) (by decide)
    · exact absurd (hcode.symm.trans h.1) (by decide)
    · exact absurd (hcode.symm.trans h.1) (by decide)
    · rw [h.2]
      simp only [List.mem_append]
      exact ⟨Or.inl hin.1, fun _ => Or.inl hin.2⟩
    · unfold exit_shape at h
      rcases h with h | h | h | h <;> exact absurd (hcode.symm.trans h.1) (by decide)

/-- C22: on revised hardware with the container buffer allocated, the routine
returns `WB_ERR_MMC_INIT` exactly when `emummc_storage_init_mmc` returns 2; for
every other result, 1 included, it goes on to the partition selection (and to
the read when that succeeds), and the outcome is the one of the run with the
result 0. -/
theorem mmc_init_only_for_two (hw : Hw) (hm : is_mariko hw = true)
    (ha : hw.malloc_pkg1_ok = true) :
    ((extract_warmboot_from_pkg1_ex hw true).code = .WB_ERR_MMC_INIT ↔ hw.mmc_res = 2) ∧
    (hw.mmc_res ≠ 2 →
      Event.emummc_storage_set_mmc_partition ∈ (extract_warmboot_from_pkg1_ex hw true).trace ∧
      (hw.set_partition_ok = true →
        Event.emummc_storage_read ∈ (extract_warmboot_from_pkg1_ex hw true).trace) ∧
      extract_warmboot_from_pkg1_ex hw true
        = extract_warmboot_from_pkg1_ex { hw with mmc_res := 0 } true) := by
  constructor
  · constructor
    · intro h
      by_contra hi
      exact extract_code_ne_mmc_init hw hm ha hi h
    · intro h
      simp [extract_warmboot_from_pkg1_ex, hm, ha, h]
  · intro hi
    have ht := extract_trace_partition hw hm ha hi
    exact ⟨ht.1, ht.2, (extract_mmc_res hw 0 hi (by decide)).symm⟩

theorem mmc_init_only_for_two_witness :
    ((extract_warmboot_from_pkg1_ex { sample_hw with mmc_res := 1 } true).code
        = .WB_ERR_MMC_INIT ↔ ({ sample_hw with mmc_res := 1 } : Hw).mmc_res = 2) ∧
    (extract_warmboot_from_pkg1_ex { sample_hw with mmc_res := 1 } true).code = .WB_SUCCESS ∧
    (extract_warmboot_from_pkg1_ex { sample_hw with mmc_res := 2 } true).code
      = .WB_ERR_MMC_INIT :=
  ⟨(mmc_init_only_for_two { sample_hw with mmc_res := 1 } (by decide) (by decide)).1,
    by decide, by decide⟩

/-! ## Bounds of the navigation reads -/

theorem nav_bounds (buf : Mem) (p : Nat)
    (hb : p + 0x20
        + ((nav_loop buf p 3 (nav_start p [0, 0, 0])).sig_found.map (skip_bytes buf p)).sum
        + final_read_length (load_u32 buf (nav_loop buf p 3 (nav_start p [0, 0, 0])).pk11_data)
      ≤ PKG1_SIZE) :
    (∀ r, r ∈ (nav_loop buf p 3 (nav_start p [0, 0, 0])).reads → r + 4 ≤ PKG1_SIZE) ∧
    (nav_loop buf p 3 (nav_start p [0, 0, 0])).pk11_data
      = p + 0x20
        + ((nav_loop buf p 3 (nav_start p [0, 0, 0])).sig_found.map (skip_bytes buf p)).sum ∧
    (nav_loop buf p 3 (nav_start p [0, 0, 0])).pk11_data
        + final_read_length (load_u32 buf (nav_loop buf p 3 (nav_start p [0, 0, 0])).pk11_data)
      ≤ PKG1_SIZE := by
  have z : skip_bytes buf p 0 = 0 := skip_bytes_unrecognized buf p 0 (by decide)
  rw [nav_loop_three buf p 0 0 0 _ _ _ _ _ _ _ rfl rfl rfl rfl rfl rfl rfl] at hb ⊢
  have hc0 : u32_ptr_add p (0x20 / 4) = (p + 32) % 2 ^ 32 := rfl
  rw [hc0] at hb ⊢
  unfold PKG1_SIZE at hb ⊢
  generalize hc0' : (p + 32) % 2 ^ 32 = c0 at hb ⊢
  generalize hg0 : load_u32 buf c0 = g0 at hb ⊢
  generalize hc1 : (c0 + skip_bytes buf p g0) % 2 ^ 32 = c1 at hb ⊢
  generalize hg1 : load_u32 buf c1 = g1 at hb ⊢
  generalize hc2 : (c1 + skip_bytes buf p g1) % 2 ^ 32 = c2 at hb ⊢
  generalize hg2 : load_u32 buf c2 = g2 at hb ⊢
  generalize hc3 : (c2 + skip_bytes buf p g2) % 2 ^ 32 = c3 at hb ⊢
  by_cases h0 : recognized g0
  · by_cases h1 : recognized g1
    · by_cases h2 : recognized g2
      · simp only [h0, h1, h2, not_true_eq_false, if_false, if_true, List.map_cons,
          List.map_nil, List.sum_cons, List.sum_nil, List.mem_cons, List.mem_singleton,
          List.not_mem_nil, or_false] at hb ⊢
        have := final_read_length_ge (load_u32 buf c3)
        refine ⟨?_, by omega, by omega⟩
        rintro r (rfl | rfl | rfl) <;> omega
      · simp only [h0, h1, h2, not_true_eq_false, not_false_eq_true, if_false, if_true,
          List.map_cons, List.map_nil, List.sum_cons, List.sum_nil, List.mem_cons,
          List.mem_singleton, List.not_mem_nil, or_false,
          skip_bytes_unrecognized buf p g2 h2] at hb ⊢
        have := final_read_length_ge (load_u32 buf c2)
        refine ⟨?_, by omega, by omega⟩
        rintro r (rfl | rfl | rfl) <;> omega
    · simp only [h0, h1, not_true_eq_false, not_false_eq_true, if_false, if_true,
        List.map_cons, List.map_nil, List.sum_cons, List.sum_nil, List.mem_cons,
        List.mem_singleton, List.not_mem_nil, or_false,
        skip_bytes_unrecognized buf p g1 h1, z] at hb ⊢
      have := final_read_length_ge (load_u32 buf c1)
      refine ⟨?_, by omega, by omega⟩
      rintro r (rfl | rfl) <;> omega
  · simp only [h0, not_false_eq_true, if_true, if_false,
      List.map_cons, List.map_nil, List.sum_cons, List.sum_nil, List.mem_cons,
      List.mem_singleton, List.not_mem_nil, or_false,
      skip_bytes_unrecognized buf p g0 h0, z] at hb ⊢
    have := final_read_length_ge (load_u32 buf c0)
    refine ⟨?_, by omega, by omega⟩
    rintro r rfl
    omega

/-- C21 (counterexample): with header word 6 equal to `0x40000` and the
bootloader signature at the walk start, the second signature load and the size
load are made at offset `0x47190` of the `0x40000`-byte buffer. -/
theorem walk_leaves_buffer :
    bytes_at (ptr_add (decrypt_in_place far_skip_hw) 0x170) 0x20
      = bytes_at (ptr_add (decrypt_in_place far_skip_hw) 0x190) 0x20 ∧
    located_pk11_offset (ptr_add (decrypt_in_place far_skip_hw) 0x170) = some 0x7000 ∧
    u32_index (decrypt_in_place far_skip_hw) (0x170 + 0x7000) 6 = 0x40000 ∧
    (nav_loop (decrypt_in_place far_skip_hw) (0x170 + 0x7000) 3
        (nav_start (0x170 + 0x7000) [0, 0, 0])).reads = [0x7190, 0x47190] ∧
    walk_end (decrypt_in_place far_skip_hw) (0x170 + 0x7000) = 0x47190 ∧
    PKG1_SIZE = 0x40000 ∧
    (extract_warmboot_from_pkg1_ex far_skip_hw true).wb_info.map
        (fun info => (info.pk11_offset, info.sig_found, info.debug_ptr_offset))
      = some (0x7000, [0xD5034FDF, 0, 0], 0x40020) := by
  decide

/-- C21 (amended): for a decrypted container that passes verification and the
magic check, when the header address plus `0x20`, plus the rounded slot values
consulted, plus the number of bytes read at the final cursor (4 for a rejected
size, the size otherwise) does not exceed the buffer size `0x40000`, every
signature load of the walk and the bytes read at the final cursor lie inside
the buffer, and the final cursor is `debug_ptr_offset` bytes past the
header. -/
theorem reads_in_bounds (hw : Hw) (hm : is_mariko hw = true)
    (ha : hw.malloc_pkg1_ok = true) (hi : hw.mmc_res ≠ 2)
    (hp : hw.set_partition_ok = true) (hr : hw.read_ok = true)
    (hv : bytes_at (ptr_add (decrypt_in_place hw) 0x170) 0x20
        = bytes_at (ptr_add (decrypt_in_place hw) 0x190) 0x20)
    (hmagic : has_pk11_magic (ptr_add (decrypt_in_place hw) 0x170) 0x4000 ∨
      has_pk11_magic (ptr_add (decrypt_in_place hw) 0x170) 0x7000) :
    ∃ info, (extract_warmboot_from_pkg1_ex hw true).wb_info = some info ∧
      info.size = load_u32 (decrypt_in_place hw)
          (walk_end (decrypt_in_place hw) (0x170 + info.pk11_offset)) ∧
      (0x170 + info.pk11_offset + 0x20
          + (info.sig_found.map
              (skip_bytes (decrypt_in_place hw) (0x170 + info.pk11_offset))).sum
          + final_read_length info.size ≤ PKG1_SIZE →
        (∀ r, r ∈ (nav_loop (decrypt_in_place hw) (0x170 + info.pk11_offset) 3
            (nav_start (0x170 + info.pk11_offset) [0, 0, 0])).reads → r + 4 ≤ PKG1_SIZE) ∧
        walk_end (decrypt_in_place hw) (0x170 + info.pk11_offset)
            + final_read_length info.size ≤ PKG1_SIZE ∧
        walk_end (decrypt_in_place hw) (0x170 + info.pk11_offset)
          = 0x170 + info.pk11_offset + info.debug_ptr_offset) := by
  obtain ⟨off, hloc, hoff⟩ := located_of_magic _ hmagic
  rw [extract_eq_locate hw hm ha hi hp hr hv, locate_eq_navigate hw _ _ off hloc]
  obtain ⟨info, hinfo, hpk, hsize, hdbg, _, _, _⟩ :=
    navigate_size hw (decrypt_in_place hw) (info_at_header hw (decrypt_in_place hw) off)
      (get_target_firmware_from_pkg1 (ptr_add (decrypt_in_place hw) 0x170)) (0x170 + off)
      (trace_before_verify hw ++ [.fuse_read_odm 6, .fuse_read_odm 7]) rfl
  obtain ⟨info2, hinfo2, hsig, _, _⟩ :=
    navigate_info hw (decrypt_in_place hw) (info_at_header hw (decrypt_in_place hw) off)
      (get_target_firmware_from_pkg1 (ptr_add (decrypt_in_place hw) 0x170)) (0x170 + off)
      (trace_before_verify hw ++ [.fuse_read_odm 6, .fuse_read_odm 7])
  have hi2 : info2 = info := Option.some.inj (hinfo2.symm.trans hinfo)
  subst hi2
  have hpk' : info2.pk11_offset = off := hpk
  have hsig' : info2.sig_found
      = (nav_loop (decrypt_in_place hw) (0x170 + off) 3
          (nav_start (0x170 + off) [0, 0, 0])).sig_found := hsig
  refine ⟨info2, hinfo, ?_, ?_⟩
  · rw [hpk']; exact hsize
  · rw [hpk', hsig', hsize, hdbg]
    intro hb
    have hw_eq : walk_end (decrypt_in_place hw) (0x170 + off)
        = (nav_loop (decrypt_in_place hw) (0x170 + off) 3
            (nav_start (0x170 + off) [0, 0, 0])).pk11_data := rfl
    rw [hw_eq] at hb ⊢
    obtain ⟨h1, h2, h3⟩ := nav_bounds (decrypt_in_place hw) (0x170 + off) hb
    refine ⟨h1, h3, ?_⟩
    have hlt : off < 0x8000 := by rcases hoff with h | h <;> rw [h] <;> decide
    unfold PKG1_SIZE at h3
    have := final_read_length_ge (load_u32 (decrypt_in_place hw)
      (nav_loop (decrypt_in_place hw) (0x170 + off) 3
        (nav_start (0x170 + off) [0, 0, 0])).pk11_data)
    omega

theorem reads_in_bounds_witness :
    (extract_warmboot_from_pkg1_ex roundtrip_hw true).wb_info.map
        (fun info => (info.pk11_offset, info.sig_found, info.size, info.debug_ptr_offset))
      = some (0x7000, [0xD5034FDF, 0x900, 0], 0x900, 0x120) ∧
    0x170 + 0x7000 + 0x20
        + (([0xD5034FDF, 0x900, 0] : List Nat).map
            (skip_bytes (decrypt_in_place roundtrip_hw) (0x170 + 0x7000))).sum
        + final_read_length 0x900 ≤ PKG1_SIZE ∧
    ∃ info, (extract_warmboot_from_pkg1_ex roundtrip_hw true).wb_info = some info ∧
      info.size = load_u32 (decrypt_in_place roundtrip_hw)
          (walk_end (decrypt_in_place roundtrip_hw) (0x170 + info.pk11_offset)) ∧
      (0x170 + info.pk11_offset + 0x20
          + (info.sig_found.map
              (skip_bytes (decrypt_in_place roundtrip_hw) (0x170 + info.pk11_offset))).sum
          + final_read_length info.size ≤ PKG1_SIZE →
        (∀ r, r ∈ (nav_loop (decrypt_in_place roundtrip_hw) (0x170 + info.pk11_offset) 3
            (nav_start (0x170 + info.pk11_offset) [0, 0, 0])).reads → r + 4 ≤ PKG1_SIZE) ∧
        walk_end (decrypt_in_place roundtrip_hw) (0x170 + info.pk11_offset)
            + final_read_length info.size ≤ PKG1_SIZE ∧
        walk_end (decrypt_in_place roundtrip_hw) (0x170 + info.pk11_offset)
          = 0x170 + info.pk11_offset + info.debug_ptr_offset) :=
  ⟨by decide, by decide,
   reads_in_bounds roundtrip_hw (by decide) (by decide) (by decide) (by decide) (by decide)
    (by decide) (by decide)⟩

end Warmboot
